import Mathlib

/-!
Verification of the swift3 S3-emulation middleware (`swift3/middleware.py`)
against its natural-language specification.

The Python source is shallowly embedded: pure helper functions become Lean
functions on `String` / `List Char` / association lists, WSGI environments
become association lists of key/value pairs, and the backend call inside a
controller method becomes an explicit parameter carrying the backend's
status, headers and parsed body.  Python byte strings are modelled as lists
of characters with code points below 256 where byte arithmetic matters.
-/

namespace Swift3

set_option maxRecDepth 100000

/-! ## Character arithmetic helpers -/

/-! ## Bucket name validation (`validate_bucket_name`, middleware.py lines 535-558) -/

/-- Python substring test `pat in s` on character lists. -/
def containsSub (pat s : List Char) : Bool := decide (pat <:+: s)

/-- One octet group of the IPv4 regex in `validate_bucket_name`:
`[0-9]|[1-9][0-9]|1[0-9]{2}|2[0-4][0-9]|25[0-5]`. -/
def ipv4Octet : List Char → Bool
  | [a] => a.isDigit
  | [a, b] => (('1' ≤ a && a ≤ '9') && b.isDigit)
  | [a, b, c] =>
      (a = '1' && b.isDigit && c.isDigit) ||
      (a = '2' && ('0' ≤ b && b ≤ '4') && c.isDigit) ||
      (a = '2' && b = '5' && ('0' ≤ c && c ≤ '5'))
  | _ => false

/-- Split a character list at every `'.'`, keeping empty pieces
(the decomposition an anchored `(octet\.){3}octet` regex match induces,
since octets never contain a dot). -/
def splitDot : List Char → List (List Char)
  | [] => [[]]
  | c :: rest =>
      if c = '.' then [] :: splitDot rest
      else
        match splitDot rest with
        | [] => [[c]]
        | h :: t => (c :: h) :: t

/-- Whole-string match of `^(octet\.){3}octet$`: exactly four dot-separated
pieces, each matching the octet group. -/
def ipv4Match (name : List Char) : Bool :=
  let ps := splitDot name
  ps.length == 4 && ps.all ipv4Octet

/-- Python `name[-1].isalnum()` (never evaluated on the empty string by the
source, which short-circuits on the length test first; `false` on empty keeps
the Lean function total without changing any reachable result). -/
def lastIsAlnum (name : List Char) : Bool :=
  match name.getLast? with | some c => c.isAlphanum | none => false

/-- Python `name[0].isalnum()`, totalised like `lastIsAlnum`. -/
def headIsAlnum (name : List Char) : Bool :=
  match name.head? with | some c => c.isAlphanum | none => false

/-- Shallow embedding of `validate_bucket_name` (middleware.py 535-558):
the three-stage `if/elif/elif/else` chain over underscore/length/last-char,
dash-dot pairs/first-char, and the IPv4 regex. -/
def validate_bucket_name (name : List Char) : Bool :=
  if decide ('_' ∈ name) || decide (name.length < 3) || decide (63 < name.length) ||
      !(lastIsAlnum name) then
    false
  else if containsSub ['.', '-'] name || containsSub ['-', '.'] name ||
      containsSub ['.', '.'] name || !(headIsAlnum name) then
    false
  else if ipv4Match name then
    false
  else
    true

/-- Decimal value of a digit string, most significant digit first. -/
def digitsVal (s : List Char) : Nat := s.foldl (fun n c => 10 * n + (c.toNat - 48)) 0

/-- Claim C9's reading of one component of a dotted-quad IPv4 literal:
a number between 0 and 255 written in decimal (nonempty, all digits,
no leading zero). -/
def DecimalOctet (s : List Char) : Prop :=
  s ≠ [] ∧ (∀ c ∈ s, c.isDigit = true) ∧ (2 ≤ s.length → s.head? ≠ some '0') ∧
    digitsVal s ≤ 255

/-- Claim C9's reading of "a dotted-quad IPv4 literal": four dot-separated
numbers each in 0-255. -/
def IsIPv4Literal (name : List Char) : Prop :=
  ∃ o1 o2 o3 o4 : List Char,
    name = o1 ++ '.' :: (o2 ++ '.' :: (o3 ++ '.' :: o4)) ∧
    DecimalOctet o1 ∧ DecimalOctet o2 ∧ DecimalOctet o3 ∧ DecimalOctet o4

/-- Join pieces back with dots: the inverse of `splitDot`. -/
def joinDot : List (List Char) → List Char
  | [] => []
  | [x] => x
  | x :: xs => x ++ '.' :: joinDot xs


/-! ## Error codes and WSGI environment model -/

/-- Error code names passed to `get_err_response` (middleware.py 92-145). -/
inductive ErrCode
  | AccessDenied
  | BucketAlreadyExists
  | BucketNotEmpty
  | InvalidArgument
  | InvalidBucketName
  | InvalidURI
  | InvalidDigest
  | BadDigest
  | NoSuchBucket
  | SignatureDoesNotMatch
  | RequestTimeTooSkewed
  | NoSuchKey
  | Unsupported
  | MissingContentLength
  | IllegalVersioningConfigurationException
  | MalformedACLError
  deriving DecidableEq, Repr

deriving instance DecidableEq for Except

/-- A Python dict with string keys and values (e.g. a WSGI environment),
modelled as an association list with distinct keys, first match wins. -/
abbrev Env := List (String × String)

/-- Dict lookup, `env.get(k)`. -/
def alGet? : Env → String → Option String
  | [], _ => none
  | (k', v) :: rest, k => if k' = k then some v else alGet? rest k

/-- Dict membership, `k in env`. -/
def alHasKey (env : Env) (k : String) : Bool :=
  (alGet? env k).isSome

/-- Dict update, `env[k] = v`: replace in place, else append. -/
def alSet (env : Env) (k v : String) : Env :=
  match env with
  | [] => [(k, v)]
  | (k', v') :: rest => if k' = k then (k, v) :: rest else (k', v') :: alSet rest k v

/-- Dict deletion, `del env[k]`. -/
def alDel : Env → String → Env
  | [], _ => []
  | (k', v) :: rest, k => if k' = k then alDel rest k else (k', v) :: alDel rest k

/-- Python `int(s)` on a decimal string: optional surrounding whitespace,
an optional sign, then at least one digit.  `none` models `ValueError`. -/
def pyInt? (s : String) : Option Int :=
  let ws : Char → Bool := fun c => c = ' ' || c = '\t' || c = '\n' || c = '\r' ||
    c = '\x0b' || c = '\x0c'
  let t := (((s.data.dropWhile ws).reverse).dropWhile ws).reverse
  match t with
  | '-' :: ds =>
      if ds ≠ [] ∧ ds.all Char.isDigit then some (-(digitsVal ds : Int)) else none
  | '+' :: ds =>
      if ds ≠ [] ∧ ds.all Char.isDigit then some (digitsVal ds : Int) else none
  | ds =>
      if ds ≠ [] ∧ ds.all Char.isDigit then some (digitsVal ds : Int) else none

/-! ## Clock-skew gate (`Swift3Middleware.handle_request`, lines 1119-1134) -/

/-- The first six fields of an `email.utils.parsedate` result, exactly what
`datetime.datetime(*date[0:6])` consumes.  The external parser guarantees
the month index comes from its month-name table, but the day, hour, minute
and second are whatever integers the header carried and the year is only
two-digit-windowed, so the constructor re-validates every field. -/
structure DateTuple where
  year : Int
  month : Nat
  day : Nat
  hour : Nat
  minute : Nat
  second : Nat
  deriving DecidableEq, Repr

/-- Gregorian leap year, as `datetime` determines February's length. -/
def isLeap (y : Int) : Bool :=
  y % 4 == 0 && (y % 100 != 0 || y % 400 == 0)

/-- Length of a month, as `datetime.datetime` validates the day. -/
def daysInMonth (y : Int) (m : Nat) : Nat :=
  if m = 2 then (if isLeap y then 29 else 28)
  else if m = 4 ∨ m = 6 ∨ m = 9 ∨ m = 11 then 30
  else 31

/-- The field ranges `datetime.datetime(year, month, day, hour, minute,
second)` accepts; outside them the constructor raises ValueError. -/
def datetimeValid (t : DateTuple) : Bool :=
  decide (1 ≤ t.year ∧ t.year ≤ 9999 ∧
    1 ≤ t.month ∧ t.month ≤ 12 ∧
    1 ≤ t.day ∧ t.day ≤ daysInMonth t.year t.month ∧
    t.hour ≤ 23 ∧ t.minute ≤ 59 ∧ t.second ≤ 59)

/-- Days since 1970-01-01 of a civil date (the standard era/day-of-era
computation with floor division); 1970-01-01 is day 0. -/
def daysFromCivil (y : Int) (m d : Nat) : Int :=
  let yd : Int := if m ≤ 2 then y - 1 else y
  let era : Int := Int.ediv yd 400
  let yoe : Int := yd - era * 400
  let mp : Int := if 2 < m then (m : Int) - 3 else (m : Int) + 9
  let doy : Int := Int.ediv (153 * mp + 2) 5 + (d : Int) - 1
  let doe : Int := yoe * 365 + Int.ediv yoe 4 - Int.ediv yoe 100 + doy
  era * 146097 + doe - 719468

/-- Seconds since the epoch of a valid datetime.  This map is strictly
monotone with respect to the `datetime` order and sends
`datetime(1970, 1, 1, 0, 0, 0)` to 0, so the source's `d1 < epoch`
comparison and the ten-minute `timedelta` thresholds transport to integer
seconds. -/
def dtSeconds (t : DateTuple) : Int :=
  86400 * daysFromCivil t.year t.month t.day
    + 3600 * (t.hour : Int) + 60 * (t.minute : Int) + (t.second : Int)

/-- Outcome of the clock-skew gate: an error response, an uncaught
ValueError from `datetime.datetime(*date[0:6])` (the request gets neither
an error response nor further processing), or proceeding past the check. -/
inductive SkewOutcome
  | err (e : ErrCode)
  | raised
  | proceed
  deriving DecidableEq, Repr

/-- Clock-skew gate of `handle_request` (middleware.py 1118-1133): the
external RFC-2822 parser `email.utils.parsedate` enters as the `parsed`
argument (`none` when it returned `None`), and the current time
`datetime.datetime.utcnow()` as `now`, in epoch seconds.  An unparseable
Date gives AccessDenied; a parsed tuple outside `datetime`'s field ranges
raises ValueError (line 1124, uncaught); a pre-epoch time gives
AccessDenied; more than 600 seconds of skew in either direction gives
RequestTimeTooSkewed; otherwise the request proceeds. -/
def dateSkewCheck (parsed : Option DateTuple) (now : Int) : SkewOutcome :=
  match parsed with
  | none => .err .AccessDenied
  | some t =>
      if datetimeValid t = false then .raised
      else if dtSeconds t < 0 then .err .AccessDenied
      else if dtSeconds t - now > 600 ∨ now - dtSeconds t > 600 then
        .err .RequestTimeTooSkewed
      else .proceed

/-! ## Canned ACL translation (`swift_acl_translate`, lines 487-532) -/

/-- Result of `swift_acl_translate`: the source returns either the string
`"Unsupported"`, the string `"InvalidArgument"`, or a list of
header-name/value pairs. -/
inductive AclTranslation
  | unsupported
  | invalidArgument
  | headers (hs : Env)
  deriving DecidableEq, Repr

/-- Shallow embedding of `swift_acl_translate(acl)` as called with
`xml=False` from `BucketController.PUT` (middleware.py 487-532): the
`authenticated-read` check, then membership in the three-entry `swift_acl`
dict, else `InvalidArgument`. -/
def swift_acl_translate (acl : String) : AclTranslation :=
  if acl = "authenticated-read" then .unsupported
  else if acl = "public-read" then
    .headers [("HTTP_X_CONTAINER_READ", ".r:*,.rlistings")]
  else if acl = "public-read-write" then
    .headers [("HTTP_X_CONTAINER_WRITE", ".r:*"),
              ("HTTP_X_CONTAINER_READ", ".r:*,.rlistings")]
  else if acl = "private" then
    .headers [("HTTP_X_CONTAINER_WRITE", "."), ("HTTP_X_CONTAINER_READ", ".")]
  else .invalidArgument


/-! ## Content-MD5 handling on PUT Object (`ObjectController.PUT`, lines 997-1012) -/

/-- Python `s.startswith(pre)`, via structural list recursion. -/
def strHasPrefix (pre s : String) : Bool := pre.data.isPrefixOf s.data

/-- Value of a base64 alphabet character (`table_a2b_base64`, pad excluded). -/
def b64Val? (c : Char) : Option Nat :=
  if 'A' ≤ c ∧ c ≤ 'Z' then some (c.toNat - 65)
  else if 'a' ≤ c ∧ c ≤ 'z' then some (c.toNat - 97 + 26)
  else if '0' ≤ c ∧ c ≤ '9' then some (c.toNat - 48 + 52)
  else if c = '+' then some 62
  else if c = '/' then some 63
  else none

/-- Character accepted by `binascii_find_valid`: base64 alphabet or pad. -/
def b64ValidChar (c : Char) : Bool := (b64Val? c).isSome || c = '='

/-- First valid character of the remaining input.  (`binascii_find_valid`
is called at a pad with `num = 1`; the current pad is the 0th valid
character, so the check inspects the first valid character of the tail.) -/
def findValid : List Char → Option Char
  | [] => none
  | c :: rest => if b64ValidChar c then some c else findValid rest

/-- Core loop of CPython `binascii.a2b_base64`, the decoder behind Python 2
`value.decode('base64')`: invalid characters are skipped; a pad character at
quad position 3 (or at position 2 when the next valid character is also a
pad) ends the input with no leftover bits; leftover bits at the end raise
`binascii.Error('Incorrect padding')`, modelled as `none`. -/
def a2bLoop : List Char → Nat → Nat → Nat → List Nat → Option (List Nat)
  | [], _, _, leftbits, out => if leftbits ≠ 0 then none else some out.reverse
  | c :: rest, quadPos, leftchar, leftbits, out =>
      if c = '=' then
        if quadPos < 2 ∨ (quadPos = 2 ∧ findValid rest ≠ some '=') then
          a2bLoop rest quadPos leftchar leftbits out
        else
          some out.reverse
      else
        match b64Val? c with
        | none => a2bLoop rest quadPos leftchar leftbits out
        | some v =>
            let leftchar' := leftchar * 64 + v
            let leftbits' := leftbits + 6
            if 8 ≤ leftbits' then
              a2bLoop rest ((quadPos + 1) % 4) (leftchar' % 2 ^ (leftbits' - 8))
                (leftbits' - 8) ((leftchar' / 2 ^ (leftbits' - 8)) % 256 :: out)
            else
              a2bLoop rest ((quadPos + 1) % 4) leftchar' leftbits' out

/-- Python 2 `value.decode('base64')`, as the list of decoded byte values;
`none` models the `binascii.Error` caught at middleware.py line 1007. -/
def a2b_base64 (s : List Char) : Option (List Nat) := a2bLoop s 0 0 0 []

/-- Lowercase hex digit of a value below 16. -/
def hexDigit (n : Nat) : Char :=
  if n < 10 then Char.ofNat (48 + n) else Char.ofNat (97 + n - 10)

/-- Python 2 `bytes.encode('hex')`: two lowercase hex digits per byte. -/
def hexOfBytes (bs : List Nat) : List Char :=
  bs.flatMap (fun b => [hexDigit (b / 16), hexDigit (b % 16)])

/-- Content-MD5 handling inside the `ObjectController.PUT` header loop
(middleware.py 1002-1010): empty header value → InvalidDigest; base64
decode failure → InvalidDigest; decoded to the empty string →
SignatureDoesNotMatch; otherwise the hex encoding of the decoded bytes
becomes the outbound ETag. -/
def contentMD5ToEtag (v : String) : Except ErrCode String :=
  if v = "" then .error .InvalidDigest
  else
    match a2b_base64 v.data with
    | none => .error .InvalidDigest
    | some bs =>
        let etag := String.mk (hexOfBytes bs)
        if etag = "" then .error .SignatureDoesNotMatch
        else .ok etag

/-- Header-rewriting loop of `ObjectController.PUT` in the non-ACL mode
(middleware.py 997-1012): iterate over a snapshot of `env.items()`,
renaming `HTTP_X_AMZ_META_*` to `HTTP_X_OBJECT_META_*`, turning
`HTTP_CONTENT_MD5` into `HTTP_ETAG` via base64→hex, and renaming
`HTTP_X_AMZ_COPY_SOURCE` to `HTTP_X_COPY_FROM`. -/
def putHeaderLoop : List (String × String) → Env → Except ErrCode Env
  | [], env => .ok env
  | (k, v) :: items, env =>
      if strHasPrefix "HTTP_X_AMZ_META_" k then
        putHeaderLoop items (alSet (alDel env k) ("HTTP_X_OBJECT_META_" ++ k.drop 16) v)
      else if k = "HTTP_CONTENT_MD5" then
        match contentMD5ToEtag v with
        | .error e => .error e
        | .ok etag => putHeaderLoop items (alSet env "HTTP_ETAG" etag)
      else if k = "HTTP_X_AMZ_COPY_SOURCE" then
        putHeaderLoop items (alSet env "HTTP_X_COPY_FROM" v)
      else
        putHeaderLoop items env

/-- The whole header rewrite of the non-ACL `ObjectController.PUT` branch:
the loop run on a snapshot of the environment's own items. -/
def objectPutRewriteHeaders (env : Env) : Except ErrCode Env :=
  putHeaderLoop env env


/-! ## S3 ACL document to backend headers (`acp_to_headers`, lines 396-442) -/

/-- Resource kind selecting the header naming scheme. -/
inductive Resource
  | object
  | container
  deriving DecidableEq, Repr

/-- One entry of a parsed AccessControlPolicy: the dict
`{'user': ..., 'permissions': [...]}` built by
`parse_access_control_policy`.  `user = none` models Python `None`
(a grantee element whose first child was not a text node). -/
structure AclUser where
  user : Option String
  permissions : List String
  deriving DecidableEq, Repr

/-- Group URI constant `AMZ_ALL_USERS` (middleware.py 83). -/
def AMZ_ALL_USERS : String := "http://acs.amazonaws.com/groups/global/AllUsers"

/-- Group URI constant `AMZ_AUTHENTICATED_USERS` (middleware.py 84-85). -/
def AMZ_AUTHENTICATED_USERS : String :=
  "http://acs.amazonaws.com/groups/global/AuthenticatedUsers"

/-- Modelled from the spec: `AUTHENTICATED_USERNAME` is imported from
`swift.common.middleware.s3acl`, an external collaborator; the spec only
calls it "the configured authenticated-users sentinel".  Its concrete value
is immaterial to the claims below (it only needs to differ from the two
group URIs). -/
def AUTHENTICATED_USERNAME : String := ".authenticated_users"

/-- `REPLACE_USERNAMES` applied to one username (middleware.py 86-89,
437-438).  The source replaces the name at most once per grant; since the
replacement results are never themselves keys of the map, applying the map
at each permission iteration is equivalent. -/
def replaceUsername (u : String) : String :=
  if u = AMZ_ALL_USERS then ".r:*"
  else if u = AMZ_AUTHENTICATED_USERS then AUTHENTICATED_USERNAME
  else u

/-- Permission list after the FULL_CONTROL fan-out (middleware.py 425-426). -/
def effectivePerms (perms : List String) : List String :=
  if "FULL_CONTROL" ∈ perms then ["READ", "WRITE", "READ_ACP", "WRITE_ACP"]
  else perms

/-- Backend header key for one permission (middleware.py 428-434):
objects always use `HTTP_X_OBJECT_ACL_*`; containers use
`HTTP_X_CONTAINER_WRITE` for WRITE and `HTTP_X_CONTAINER_ACL_*` otherwise. -/
def aclHeaderKey (r : Resource) (p : String) : String :=
  match r with
  | .object => "HTTP_X_OBJECT_ACL_" ++ p
  | .container =>
      if p = "WRITE" then "HTTP_X_CONTAINER_" ++ p
      else "HTTP_X_CONTAINER_ACL_" ++ p

/-- The `permissions` dict of `acp_to_headers`: header key to grantee list. -/
abbrev PermMap := List (String × List String)

/-- Lookup in the permissions dict; `[]` for an absent key (the source
initialises absent keys to `[]` before appending). -/
def pmGet : PermMap → String → List String
  | [], _ => []
  | (k', v) :: rest, k => if k' = k then v else pmGet rest k

/-- `if key not in permissions: permissions[key] = []` followed by
`if username not in permissions[key]: permissions[key].append(username)`
(middleware.py 435-440). -/
def pmAdd : PermMap → String → String → PermMap
  | [], k, u => [(k, [u])]
  | (k', v) :: rest, k, u =>
      if k' = k then (k', if u ∈ v then v else v ++ [u]) :: rest
      else (k', v) :: pmAdd rest k u

/-- Key presence in the permissions dict. -/
def pmHas : PermMap → String → Bool
  | [], _ => false
  | (k', _) :: rest, k => k' == k || pmHas rest k

/-- Initial `permissions` dict (middleware.py 410-420). -/
def initPerms : Resource → PermMap
  | .object =>
      [("HTTP_X_OBJECT_ACL_READ", []), ("HTTP_X_OBJECT_ACL_WRITE", []),
       ("HTTP_X_OBJECT_ACL_READ_ACP", []), ("HTTP_X_OBJECT_ACL_WRITE_ACP", [])]
  | .container =>
      [("HTTP_X_CONTAINER_READ", []), ("HTTP_X_CONTAINER_ACL_READ", []),
       ("HTTP_X_CONTAINER_WRITE", []), ("HTTP_X_CONTAINER_ACL_READ_ACP", []),
       ("HTTP_X_CONTAINER_ACL_WRITE_ACP", [])]

/-- Inner loop over one grant's permissions (middleware.py 427-440). -/
def addUserPerms (r : Resource) (pm : PermMap) (u : String)
    (perms : List String) : PermMap :=
  perms.foldl (fun pm p => pmAdd pm (aclHeaderKey r p) (replaceUsername u)) pm

/-- One iteration of the grant loop (middleware.py 421-440): skip grants
with a falsy username (`None` or empty), else fan out FULL_CONTROL and add
the grantee under each permission's header key. -/
def addAclUser (r : Resource) (pm : PermMap) (user : AclUser) : PermMap :=
  match user.user with
  | none => pm
  | some u =>
      if u = "" then pm
      else addUserPerms r pm u (effectivePerms user.permissions)

/-- Shallow embedding of `acp_to_headers` (middleware.py 396-442) applied
to an already-parsed grant list: the environment updates
`env[key] = ','.join(value)`, one per key of the permissions dict. -/
def acp_to_headers (r : Resource) (acl : List AclUser) : Env :=
  (acl.foldl (addAclUser r) (initPerms r)).map
    (fun p => (p.1, String.intercalate "," p.2))

/-- Claim C6's description of one header value: the grantees of every grant
carrying the permission (FULL_CONTROL fanned out to all four), group URIs
replaced, in order of first occurrence with duplicates removed. -/
def granteesFor (p : String) (acl : List AclUser) : List String :=
  acl.foldl (fun xs user =>
    match user.user with
    | none => xs
    | some u =>
        if u = "" then xs
        else if p ∈ effectivePerms user.permissions then
          if replaceUsername u ∈ xs then xs else xs ++ [replaceUsername u]
        else xs) []

/-! ## XML documents (`get_s3_acl` 305-333, `parse_access_control_policy` 336-393) -/

/-- DOM node: element with attributes and children, or text.  A parsed
document is a list of top-level nodes. -/
inductive Xml
  | elem (tag : String) (attrs : List (String × String)) (children : List Xml)
  | text (s : String)

/-- minidom `node.nodeName`: the tag for elements, `#text` for text nodes. -/
def nodeName : Xml → String
  | .elem t _ _ => t
  | .text _ => "#text"

/-- minidom `node.nodeValue`: `None` for elements, the text for text nodes. -/
def nodeValue : Xml → Option String
  | .elem _ _ _ => none
  | .text s => some s

/-- minidom `node.childNodes` (empty for text nodes). -/
def childNodes : Xml → List Xml
  | .elem _ _ cs => cs
  | .text _ => []

/-- Character allowed in an XML name, as the embedded parser scans tags and
attribute names. -/
def isNameChar (c : Char) : Bool :=
  c.isAlphanum || c = ':' || c = '-' || c = '_' || c = '.'

/-- Decode predefined XML entities in text content; `none` when a raw `&`
is not followed by a recognised entity reference (expat raises an error
there).  Character references and the quote entities are not modelled; they
never occur in the middleware's documents. -/
def decodeEntities : List Char → Option (List Char)
  | [] => some []
  | c :: rest =>
      if c = '&' then
        match rest with
        | a :: b :: d :: rest3 =>
            if a = 'a' ∧ b = 'm' ∧ d = 'p' then
              match rest3 with
              | e :: rest4 =>
                  if e = ';' then (decodeEntities rest4).map (fun t => '&' :: t)
                  else none
              | [] => none
            else if a = 'l' ∧ b = 't' ∧ d = ';' then
              (decodeEntities rest3).map (fun t => '<' :: t)
            else if a = 'g' ∧ b = 't' ∧ d = ';' then
              (decodeEntities rest3).map (fun t => '>' :: t)
            else none
        | _ => none
      else (decodeEntities rest).map (fun t => c :: t)

/-- Parse the attribute list of an open tag up to and including the `>`:
zero or more ` name="value"` groups.  Models the relevant fragment of the
external XML parser behind `xml.dom.minidom.parseString`. -/
def parseAttrs : Nat → List Char → Option (List (String × String) × List Char)
  | 0, _ => none
  | fuel + 1, s =>
      match s with
      | [] => none
      | c0 :: rest =>
          if c0 = '>' then some ([], rest)
          else if c0 = ' ' then
            let name := rest.takeWhile (fun c => c != '=')
            (match rest.drop name.length with
             | d1 :: d2 :: rest2 =>
                 if d1 = '=' ∧ d2 = '"' then
                   let value := rest2.takeWhile (fun c => c != '"')
                   (match rest2.drop value.length with
                    | d3 :: rest3 =>
                        if d3 = '"' then
                          (match parseAttrs fuel rest3 with
                           | some (attrs, rest4) =>
                               some ((String.mk name, String.mk value) :: attrs, rest4)
                           | none => none)
                        else none
                    | _ => none)
                 else none
             | _ => none)
          else none

/-- Parse a sequence of sibling nodes, stopping at a closing tag or the end
of input; elements must be properly nested and closed.  Models the relevant
fragment of the external XML parser behind `xml.dom.minidom.parseString`
(`none` models the `ExpatError` on malformed documents). -/
def parseNodes : Nat → List Char → Option (List Xml × List Char)
  | 0, _ => none
  | fuel + 1, s =>
      match s with
      | [] => some ([], [])
      | c :: rest =>
          if c = '<' then
            match rest with
            | [] => none
            | r0 :: _ =>
                if r0 = '/' then some ([], c :: rest)
                else
                let tag := rest.takeWhile isNameChar
                if tag = [] then none
                else
                  match parseAttrs fuel (rest.drop tag.length) with
                  | none => none
                  | some (attrs, s1) =>
                      match parseNodes fuel s1 with
                      | none => none
                      | some (children, s2) =>
                          match s2 with
                          | e1 :: e2 :: s3 =>
                              if e1 = '<' ∧ e2 = '/' ∧ tag.isPrefixOf s3 then
                                match s3.drop tag.length with
                                | e3 :: s4 =>
                                    if e3 = '>' then
                                      (match parseNodes fuel s4 with
                                       | none => none
                                       | some (siblings, s5) =>
                                           some (.elem (String.mk tag) attrs children :: siblings, s5))
                                    else none
                                | _ => none
                              else none
                          | _ => none
          else
            let txt := (c :: rest).takeWhile (fun c => c != '<')
            match decodeEntities txt with
            | none => none
            | some t =>
                match parseNodes fuel ((c :: rest).drop txt.length) with
                | none => none
                | some (siblings, rest2) => some (.text (String.mk t) :: siblings, rest2)

/-- Python `xml.dom.minidom.parseString` (external library), modelled for
the documents this middleware emits: the document's top-level node list,
`none` on a parse error or trailing garbage. -/
def parseXmlDoc (s : String) : Option (List Xml) :=
  match parseNodes (s.data.length + 1) s.data with
  | some (doc, []) => some doc
  | _ => none

/-- Serialisation of an attribute list. -/
def serAttrs (attrs : List (String × String)) : List Char :=
  attrs.flatMap (fun a => ' ' :: (a.1.data ++ '=' :: '"' :: (a.2.data ++ ['"'])))

mutual

/-- Serialisation of a node, for relating the emitted strings to trees. -/
def ser : Xml → List Char
  | .elem tag attrs children =>
      '<' :: (tag.data ++ serAttrs attrs ++ '>' ::
        (serNodes children ++ '<' :: '/' :: (tag.data ++ ['>'])))
  | .text s => s.data

def serNodes : List Xml → List Char
  | [] => []
  | t :: ts => ser t ++ serNodes ts
end

mutual

/-- What a serialised node parses back to: elements persist and text
decodes its entities (minidom hands decoded character data to the walker). -/
def decXml : Xml → Xml
  | .elem t a cs => .elem t a (decNodes cs)
  | .text s => .text (String.mk ((decodeEntities s.data).getD []))

def decNodes : List Xml → List Xml
  | [] => []
  | x :: xs => decXml x :: decNodes xs
end

/-! ## get_s3_acl (response path, lines 267-333) and its external pieces -/

/-- `xml.sax.saxutils.escape`: replace `&`, `<` and `>` by entities. -/
def xml_escape (s : String) : String :=
  String.mk (s.data.flatMap (fun c =>
    if c = '&' then "&amp;".data
    else if c = '<' then "&lt;".data
    else if c = '>' then "&gt;".data
    else [c]))

/-- XML Grant for a group grantee (`amz_group_grant`, middleware.py 267-282). -/
def amz_group_grant (uri permission : String) : String :=
  "<Grant><Grantee xmlns:xsi=\"http://www.w3.org/2001/XMLSchema-instance\" xsi:type=\"Group\"><URI>"
    ++ uri ++ "</URI></Grantee><Permission>" ++ permission ++ "</Permission></Grant>"

/-- XML Grant for a user grantee (`amz_user_grant`, middleware.py 285-302). -/
def amz_user_grant (id name permission : String) : String :=
  "<Grant><Grantee xmlns:xsi=\"http://www.w3.org/2001/XMLSchema-instance\" xsi:type=\"CanonicalUser\"><ID>"
    ++ id ++ "</ID><DisplayName>" ++ name ++ "</DisplayName></Grantee><Permission>"
    ++ permission ++ "</Permission></Grant>"

/-- Split a character list at every occurrence of a separator. -/
def splitChar (sep : Char) : List Char → List (List Char)
  | [] => [[]]
  | c :: rest =>
      if c = sep then [] :: splitChar sep rest
      else
        match splitChar sep rest with
        | [] => [[c]]
        | h :: t => (c :: h) :: t

/-- Modelled from the spec: `parse_acl` from `swift.common.middleware.acl`
(an external collaborator).  Spec §4.6: the backend ACL value is a
comma-separated list in referrer/group form, `.r:<pattern>` entries being
referrers and all other entries named groups; an empty value has neither. -/
def parse_acl (aclStr : String) : List String × List String :=
  if aclStr = "" then ([], [])
  else
    let es := splitChar ',' aclStr.data
    (es.filterMap (fun e =>
       if ".r:".data.isPrefixOf e then some (String.mk (e.drop 3)) else none),
     es.filterMap (fun e =>
       if ".r:".data.isPrefixOf e then none else some (String.mk e)))

/-- Modelled from the spec: `container_server.ACL_HEADERS`, declared by the
backend (an external collaborator).  Spec §4.6/§6 list the container ACL
headers as X-Container-Read, X-Container-Write and the X-Container-Acl-*
family. -/
def containerAclHeaders : List String :=
  ["x-container-read", "x-container-write", "x-container-acl-read",
   "x-container-acl-read-acp", "x-container-acl-write-acp"]

/-- Permission name extracted from an ACL header (middleware.py 315-322):
drop the `x-container-acl-` / `x-container-` / `x-object-acl-` prefix,
uppercase, `-` to `_`. -/
def headerPermission (r : Resource) (header : String) : String :=
  match r with
  | .container =>
      let frm := if strHasPrefix "x-container-acl-" header then 16 else 12
      String.mk ((header.data.drop frm).map (fun c => if c = '-' then '_' else c.toUpper))
  | .object =>
      String.mk ((header.data.drop 13).map (fun c => if c = '-' then '_' else c.toUpper))

/-- Owner header name, `'x-%s-owner' % resource` (middleware.py 307). -/
def ownerHeaderName : Resource → String
  | .container => "x-container-owner"
  | .object => "x-object-owner"

/-- Grant strings contributed by one ACL header (middleware.py 313-331):
referrer grants first (`*` mapped to the AllUsers URI), then group grants. -/
def headerGrantsStr (headers : Env) (header : String) (r : Resource) : String :=
  match alGet? headers header with
  | none => ""
  | some value =>
      let permission := headerPermission r header
      if permission = "" then ""
      else
        let pa := parse_acl value
        String.join (pa.1.map (fun ref =>
          amz_group_grant (if ref = "*" then AMZ_ALL_USERS else ref) permission)) ++
        String.join (pa.2.map (fun g => amz_user_grant g g permission))

/-- Body string built by `get_s3_acl` (middleware.py 305-333): the
AccessControlPolicy document with an optional Owner section and one grant
per parsed referrer/group of each present ACL header. -/
def get_s3_acl_body (headers : Env) (aclHeaders : List String) (r : Resource) : String :=
  "<AccessControlPolicy>" ++
  (match alGet? headers (ownerHeaderName r) with
   | some ow =>
       "<Owner><ID>" ++ xml_escape ow ++ "</ID><DisplayName>" ++ xml_escape ow
         ++ "</DisplayName></Owner>"
   | none => "") ++
  "<AccessControlList>" ++
  String.join (aclHeaders.map (fun h => headerGrantsStr headers h r)) ++
  "</AccessControlList></AccessControlPolicy>"

/-! ## The DOM walker `parse_access_control_policy` (lines 336-393) -/

/-- Result dict `{'owner': ..., 'acl': [...]}`.  Both string fields may
hold Python `None` (modelled by `none` inside `Option`). -/
structure AcpOut where
  owner : Option String
  acl : List AclUser
  deriving DecidableEq, Repr

/-- Owner scan (middleware.py 368-371): for each `ID` child take
`childNodes[0].nodeValue`; an empty element raises IndexError (`none`). -/
def walkOwner : List Xml → Option String → Option (Option String)
  | [], owner => some owner
  | n :: rest, owner =>
      if nodeName n = "ID" then
        match childNodes n with
        | [] => none
        | c :: _ => walkOwner rest (nodeValue c)
      else walkOwner rest owner

/-- Grantee scan (middleware.py 380-387): `ID`, `URI` or `EmailAddress`
children set the user from `childNodes[0].nodeValue`. -/
def walkGrantee : List Xml → Option String → Option (Option String)
  | [], usr => some usr
  | n :: rest, usr =>
      if nodeName n = "ID" ∨ nodeName n = "URI" ∨ nodeName n = "EmailAddress" then
        match childNodes n with
        | [] => none
        | c :: _ => walkGrantee rest (nodeValue c)
      else walkGrantee rest usr

/-- Grant children scan (middleware.py 379-391): Grantee updates the user,
Permission appends its truthy text value. -/
def walkGrantChildren : List Xml → AclUser → Option AclUser
  | [], u => some u
  | node :: rest, u =>
      if nodeName node = "Grantee" then
        match walkGrantee (childNodes node) u.user with
        | none => none
        | some usr => walkGrantChildren rest { u with user := usr }
      else if nodeName node = "Permission" then
        match childNodes node with
        | [] => none
        | c :: _ =>
            match nodeValue c with
            | some v =>
                if v ≠ "" then
                  walkGrantChildren rest { u with permissions := u.permissions ++ [v] }
                else walkGrantChildren rest u
            | none => walkGrantChildren rest u
      else walkGrantChildren rest u

/-- Grant list scan (middleware.py 375-392): non-Grant children are
skipped; each Grant contributes one user entry. -/
def walkGrants : List Xml → Option (List AclUser)
  | [] => some []
  | g :: rest =>
      if nodeName g ≠ "Grant" then walkGrants rest
      else
        match walkGrantChildren (childNodes g) ⟨some "", []⟩ with
        | none => none
        | some u =>
            match walkGrants rest with
            | none => none
            | some us => some (u :: us)

/-- Top-level child scan (middleware.py 367-373): Owner children update the
owner; the last AccessControlList child is remembered. -/
def walkAcpNodes : List Xml → Option String → Option Xml → Option (Option String × Option Xml)
  | [], owner, aclNode => some (owner, aclNode)
  | node :: rest, owner, aclNode =>
      if nodeName node = "Owner" then
        match walkOwner (childNodes node) owner with
        | none => none
        | some o2 => walkAcpNodes rest o2 aclNode
      else if nodeName node = "AccessControlList" then
        walkAcpNodes rest owner (some node)
      else walkAcpNodes rest owner aclNode

/-- Shallow embedding of `parse_access_control_policy` (middleware.py
336-393) applied to a parsed document; `none` models an uncaught
IndexError inside the walk. -/
def parse_access_control_policy (doc : List Xml) : Option AcpOut :=
  match doc with
  | [] => some ⟨some "", []⟩
  | root :: _ =>
      if nodeName root = "AccessControlPolicy" then
        match walkAcpNodes (childNodes root) (some "") none with
        | none => none
        | some (owner, none) => some ⟨owner, []⟩
        | some (owner, some aclNode) =>
            match walkGrants (childNodes aclNode) with
            | none => none
            | some us => some ⟨owner, us⟩
      else some ⟨some "", []⟩

/-! ## Round-trip scaffolding for claim C7 -/

/-- Value of a hexadecimal digit, either case. -/
def hexVal? (c : Char) : Option Nat :=
  if '0' ≤ c ∧ c ≤ '9' then some (c.toNat - 48)
  else if 'a' ≤ c ∧ c ≤ 'f' then some (c.toNat - 87)
  else if 'A' ≤ c ∧ c ≤ 'F' then some (c.toNat - 55)
  else none

/-- Python 2 `urllib.unquote`: each `%` followed by two hex digits becomes
the byte they denote, any other `%` stays literal. -/
def pyUnquote : List Char → List Char
  | [] => []
  | c :: rest =>
      if c = '%' then
        match rest with
        | [] => ['%']
        | [a] => '%' :: pyUnquote [a]
        | a :: b :: rest2 =>
            (match hexVal? a, hexVal? b with
             | some ha, some hb => Char.ofNat (16 * ha + hb) :: pyUnquote rest2
             | _, _ => '%' :: pyUnquote (a :: b :: rest2))
      else c :: pyUnquote rest

/-- Upper-case hexadecimal digit, for `quote`'s `%%%02X` escapes. -/
def hexDigitUpper (n : Nat) : Char :=
  if n < 10 then Char.ofNat (48 + n) else Char.ofNat (55 + n)

/-- Python 2 `urllib.quote(s, safe)`: letters, digits, `_.-` and the safe
characters pass through, every other byte is percent-encoded. -/
def pyQuote (s : List Char) (safe : List Char) : List Char :=
  s.flatMap (fun c =>
    if c.isAlphanum || c = '_' || c = '.' || c = '-' || c ∈ safe then [c]
    else ['%', hexDigitUpper (c.toNat / 16 % 16), hexDigitUpper (c.toNat % 16)])

/-- `+` to space, applied to names and values before unquoting. -/
def plusToSpace (l : List Char) : List Char :=
  l.map (fun c => if c = '+' then ' ' else c)

/-- Split at the first occurrence of a separator; `none` when absent
(Python `split(sep, 1)` yielding one part). -/
def splitFirst (sep : Char) : List Char → (List Char × Option (List Char))
  | [] => ([], none)
  | c :: rest =>
      if c = sep then ([], some rest)
      else
        match splitFirst sep rest with
        | (a, b) => (c :: a, b)

/-- Python 2 `urlparse.parse_qsl(qs, keep_blank_values=1)`: fields split on
`&` and `;`, empty fields skipped, each field split at its first `=` (a
missing value becomes the empty string), names and values `+`-decoded then
percent-decoded, in field order with duplicates kept. -/
def parse_qsl (qs : List Char) : List (String × String) :=
  ((splitChar '&' qs).flatMap (splitChar ';')).filterMap (fun f =>
    if f = [] then none
    else
      let (n, v?) := splitFirst '=' f
      some (String.mk (pyUnquote (plusToSpace n)),
            String.mk (pyUnquote (plusToSpace (v?.getD [])))))

/-- Lookup in a `dict(pairs)` built from a pair list: the last binding of
the key wins. -/
def dictGet? : List (String × String) → String → Option String
  | [], _ => none
  | (k', v) :: rest, k =>
      match dictGet? rest k with
      | some v2 => some v2
      | none => if k' = k then some v else none

/-- Key membership in a `dict(pairs)`. -/
def dictHas (l : List (String × String)) (k : String) : Bool :=
  (dictGet? l k).isSome

/-! ## canonical_string (middleware.py 445-484) -/

/-- ASCII lowercasing, Python `str.lower()` on byte strings. -/
def lowerStr (s : String) : String := String.mk (s.data.map Char.toLower)

/-- Request as `canonical_string` sees it: the method, the (case-preserving)
header list and `req.path_qs`. -/
structure S3Req where
  method : String
  headers : List (String × String)
  path_qs : String
  deriving DecidableEq, Repr

/-- Case-insensitive header lookup (webob header dicts compare keys
case-insensitively), first match wins. -/
def hFind? (headers : List (String × String)) (k : String) : Option String :=
  match headers with
  | [] => none
  | (k', v) :: rest => if lowerStr k' = lowerStr k then some v else hFind? rest k

/-- Case-insensitive header membership. -/
def hHas (headers : List (String × String)) (k : String) : Bool :=
  (hFind? headers k).isSome

/-- Python byte-string comparison `a <= b`: lexicographic by byte value. -/
def lexLe (a b : List Char) : Bool :=
  match a, b with
  | [], _ => true
  | _ :: _, [] => false
  | x :: xs, y :: ys => if x = y then lexLe xs ys else decide (x.toNat < y.toNat)

/-- Insert into a `lexLe`-sorted list. -/
def insertSorted (x : String) : List String → List String
  | [] => [x]
  | y :: rest => if lexLe x.data y.data then x :: y :: rest else y :: insertSorted x rest

/-- Python `sorted` on strings (insertion sort; the order is total so
stability is immaterial here). -/
def sortStrings (l : List String) : List String := l.foldr insertSorted []

/-- Collapse adjacent duplicates of a sorted list (the `amz_headers` dict
keeps one entry per key). -/
def dedupSorted : List String → List String
  | [] => []
  | [x] => [x]
  | x :: y :: rest =>
      if x = y then dedupSorted (y :: rest) else x :: dedupSorted (y :: rest)

/-- The sorted lowercased `x-amz-*` header keys of the request
(middleware.py 454-456, 463): the keys of the `amz_headers` dict in the
order the canonical string walks them. -/
def amzSortedKeys (headers : List (String × String)) : List String :=
  dedupSorted (sortStrings
    ((headers.map (fun p => lowerStr p.1)).filter (fun k => strHasPrefix "x-amz-" k)))

/-- The closed sub-resource set of `canonical_string` (middleware.py
478-480). -/
def CANON_SUBRESOURCES : List String :=
  ["acl", "location", "logging", "requestPayment", "torrent", "versionId",
   "versioning", "versions"]

/-- Shallow embedding of `canonical_string(req)` (middleware.py 445-484):
method, Content-MD5 and Content-Type lines; an empty line when `x-amz-date`
is among the amz headers, else the Date header's line when present, else no
date line; one `key:value` line per sorted lowercased `x-amz-*` header; the
path with the object segment re-quoted; and the surviving sub-resource
query parameters appended `?k[=v]&...` in query-string order. -/
def canonical_string (req : S3Req) : String :=
  let buf := req.method ++ "\n"
    ++ (hFind? req.headers "Content-MD5").getD "" ++ "\n"
    ++ (hFind? req.headers "Content-Type").getD "" ++ "\n"
  let amzKeys := amzSortedKeys req.headers
  let buf := if "x-amz-date" ∈ amzKeys then buf ++ "\n"
    else if hHas req.headers "Date" then
      buf ++ (hFind? req.headers "Date").getD "" ++ "\n"
    else buf
  let buf := buf ++ String.join (amzKeys.map (fun k =>
    k ++ ":" ++ (hFind? req.headers k).getD "" ++ "\n"))
  let pa := splitFirst '?' req.path_qs.data
  let args := (pa.2).getD []
  let path := match splitChar '/' pa.1 with
    | s0 :: s1 :: s2 :: rest =>
        if s2 = [] then pa.1
        else
          List.intercalate ['/'] [s0, s1,
            pyQuote (pyUnquote (List.intercalate ['/'] (s2 :: rest))) []]
    | _ => pa.1
  let params := (parse_qsl args).filterMap (fun kv =>
    if kv.1 ∈ CANON_SUBRESOURCES then
      some (if kv.2 ≠ "" then kv.1 ++ "=" ++ kv.2 else kv.1)
    else none)
  if params ≠ [] then
    buf ++ String.mk path ++ "?" ++ String.intercalate "&" params
  else buf ++ String.mk path

/-- The first three lines of the canonical string (claim C4's anchor). -/
def canonHeadLines (req : S3Req) : String :=
  req.method ++ "\n"
    ++ (hFind? req.headers "Content-MD5").getD "" ++ "\n"
    ++ (hFind? req.headers "Content-Type").getD "" ++ "\n"

/-- The sorted amz header lines of the canonical string. -/
def canonAmzLines (req : S3Req) : String :=
  String.join ((amzSortedKeys req.headers).map (fun k =>
    k ++ ":" ++ (hFind? req.headers k).getD "" ++ "\n"))

/-- The canonical resource part: requoted path plus surviving sub-resource
parameters. -/
def canonResourcePart (req : S3Req) : String :=
  let pa := splitFirst '?' req.path_qs.data
  let args := (pa.2).getD []
  let path := match splitChar '/' pa.1 with
    | s0 :: s1 :: s2 :: rest =>
        if s2 = [] then pa.1
        else
          List.intercalate ['/'] [s0, s1,
            pyQuote (pyUnquote (List.intercalate ['/'] (s2 :: rest))) []]
    | _ => pa.1
  let params := (parse_qsl args).filterMap (fun kv =>
    if kv.1 ∈ CANON_SUBRESOURCES then
      some (if kv.2 ≠ "" then kv.1 ++ "=" ++ kv.2 else kv.1)
    else none)
  if params ≠ [] then
    String.mk path ++ "?" ++ String.intercalate "&" params
  else String.mk path

/-- Is `x-amz-date` among the request's amz headers? -/
def hasAmzDate (req : S3Req) : Bool :=
  decide ("x-amz-date" ∈ amzSortedKeys req.headers)

/-! ## BucketController.GET (middleware.py 620-802) -/

/-- `MAX_BUCKET_LISTING` (middleware.py 82). -/
def MAX_BUCKET_LISTING : Nat := 1000

/-- Python `str.isdigit()`: nonempty and all digits. -/
def pyIsdigit (s : String) : Bool :=
  !s.data.isEmpty && s.data.all Char.isDigit

/-- The `args` dict of the bucket controllers:
`dict(urlparse.parse_qsl(env['QUERY_STRING'], 1))`, empty without a query
string (lookups through `dictGet?` see the dict's last-wins bindings). -/
def bucketArgs (env : Env) : List (String × String) :=
  match alGet? env "QUERY_STRING" with
  | none => []
  | some qs => parse_qsl qs.data

/-- The max-keys guard of `BucketController.GET` (middleware.py 629-631):
true when `max-keys` is absent or all digits. -/
def maxKeysOk (args : List (String × String)) : Bool :=
  match dictGet? args "max-keys" with
  | some v => pyIsdigit v
  | none => true

/-- `max_keys = min(int(args.get('max-keys', MAX_BUCKET_LISTING)),
MAX_BUCKET_LISTING)` (middleware.py 633-634), after the digits guard. -/
def bucketMaxKeys (args : List (String × String)) : Nat :=
  min (match dictGet? args "max-keys" with
       | some v => digitsVal v.data
       | none => MAX_BUCKET_LISTING) MAX_BUCKET_LISTING

/-- One backend listing entry as the middleware reads the JSON body: the
fields the two listing loops access.  `subdir` is present exactly for
common-prefix entries; `owner` is optional (the plain loop defaults it to
the account name). -/
structure SwiftObj where
  subdir : Option String
  name : String
  deleted : Bool
  version_id : String
  is_latest : Bool
  last_modified : String
  hash : String
  bytes : Nat
  owner : Option String
  deriving DecidableEq, Repr

/-- `IsTruncated` of the ?versions listing (middleware.py 748):
`'true' if len(objects) == (max_keys + 1) else 'false'` — no
`max_keys > 0` guard. -/
def versionsIsTruncated (numObjects maxKeys : Nat) : String :=
  if numObjects = maxKeys + 1 then "true" else "false"

/-- `IsTruncated` of the plain listing (middleware.py 796-797):
`'true' if max_keys > 0 and len(objects) == (max_keys + 1) else 'false'`. -/
def plainIsTruncated (numObjects maxKeys : Nat) : String :=
  if 0 < maxKeys ∧ numObjects = maxKeys + 1 then "true" else "false"

/-- One entry of the ?versions object list (middleware.py 695-730): nothing
for common-prefix entries, a DeleteMarker for deleted objects, a Version
otherwise; `none` models the uncaught KeyError when a Version entry has no
`owner`. -/
def versionsObjEntry (obj : SwiftObj) : Option String :=
  match obj.subdir with
  | some _ => some ""
  | none =>
      if obj.deleted then
        some ("<DeleteMarker><Key>"
          ++ xml_escape (String.mk (pyUnquote obj.name.data))
          ++ "</Key><VersionId>" ++ obj.version_id ++ "</VersionId><IsLatest>"
          ++ (if obj.is_latest then "true" else "false")
          ++ "</IsLatest><LastModified>" ++ obj.last_modified
          ++ "</LastModified></DeleteMarker>")
      else
        match obj.owner with
        | none => none
        | some ow =>
            some ("<Version><Key>"
              ++ xml_escape (String.mk (pyUnquote obj.name.data))
              ++ "</Key><VersionId>" ++ obj.version_id ++ "</VersionId><IsLatest>"
              ++ (if obj.is_latest then "true" else "false")
              ++ "</IsLatest><LastModified>" ++ obj.last_modified
              ++ "</LastModified><ETag>&quot;" ++ obj.hash
              ++ "&quot;</ETag><Size>" ++ toString obj.bytes
              ++ "</Size><StorageClass>STANDARD</StorageClass><Owner><ID>" ++ ow
              ++ "</ID><DisplayName>" ++ ow ++ "</DisplayName></Owner></Version>")

/-- Concatenated ?versions entries, failing when any entry fails. -/
def versionsEntries : List SwiftObj → Option String
  | [] => some ""
  | o :: rest =>
      match versionsObjEntry o, versionsEntries rest with
      | some e, some r => some (e ++ r)
      | _, _ => none

/-- The trailing CommonPrefixes of the ?versions body, over
`objects[:max_keys]` (middleware.py 753-755); no unquoting here. -/
def versionsCommonPrefixes (objs : List SwiftObj) : String :=
  String.join (objs.filterMap (fun i => i.subdir.map (fun sd =>
    "<CommonPrefixes><Prefix>" ++ xml_escape sd ++ "</Prefix></CommonPrefixes>")))

/-- The ?versions ListVersionsResult body (middleware.py 731-755). -/
def versionsBody (args : List (String × String)) (container : String)
    (maxKeys : Nat) (objects : List SwiftObj) : Option String :=
  (versionsEntries objects).map (fun entries =>
    "<?xml version=\"1.0\" encoding=\"UTF-8\"?><ListVersionsResult xmlns=\"http://s3.amazonaws.com/doc/2006-03-01\"><Prefix>"
    ++ xml_escape ((dictGet? args "prefix").getD "") ++ "</Prefix><KeyMarker>"
    ++ xml_escape ((dictGet? args "key-marker").getD "") ++ "</KeyMarker><VersionIdMarker>"
    ++ xml_escape ((dictGet? args "version-id-marker").getD "") ++ "</VersionIdMarker><Delimiter>"
    ++ xml_escape ((dictGet? args "delimiter").getD "") ++ "</Delimiter><IsTruncated>"
    ++ versionsIsTruncated objects.length maxKeys ++ "</IsTruncated><MaxKeys>"
    ++ toString maxKeys ++ "</MaxKeys><Name>" ++ xml_escape container ++ "</Name>"
    ++ entries ++ versionsCommonPrefixes (objects.take maxKeys)
    ++ "</ListVersionsResult>")

/-- The Contents entries of the plain listing (middleware.py 758-781). -/
def plainContents (account : String) (objs : List SwiftObj) : String :=
  String.join (objs.filterMap (fun i =>
    match i.subdir with
    | some _ => none
    | none =>
        some ("<Contents><Key>"
          ++ xml_escape (String.mk (pyUnquote i.name.data))
          ++ "</Key><LastModified>" ++ i.last_modified ++ "Z</LastModified><ETag>"
          ++ i.hash ++ "</ETag><Size>" ++ toString i.bytes
          ++ "</Size><StorageClass>STANDARD</StorageClass><Owner><ID>"
          ++ (i.owner.getD account) ++ "</ID><DisplayName>"
          ++ (i.owner.getD account) ++ "</DisplayName></Owner></Contents>")))

/-- The CommonPrefixes entries of the plain listing (middleware.py
760-765). -/
def plainPrefixes (objs : List SwiftObj) : String :=
  String.join (objs.filterMap (fun i => i.subdir.map (fun sd =>
    "<CommonPrefixes><Prefix>" ++ xml_escape (String.mk (pyUnquote sd.data))
      ++ "</Prefix></CommonPrefixes>")))

/-- The plain ListBucketResult body (middleware.py 782-801). -/
def plainBody (args : List (String × String)) (container account : String)
    (maxKeys : Nat) (objects : List SwiftObj) : String :=
  "<?xml version=\"1.0\" encoding=\"UTF-8\"?><ListBucketResult xmlns=\"http://s3.amazonaws.com/doc/2006-03-01\"><Prefix>"
  ++ xml_escape ((dictGet? args "prefix").getD "") ++ "</Prefix><Marker>"
  ++ xml_escape ((dictGet? args "marker").getD "") ++ "</Marker><Delimiter>"
  ++ xml_escape ((dictGet? args "delimiter").getD "") ++ "</Delimiter><IsTruncated>"
  ++ plainIsTruncated objects.length maxKeys ++ "</IsTruncated><MaxKeys>"
  ++ toString maxKeys ++ "</MaxKeys><Name>" ++ xml_escape container ++ "</Name>"
  ++ plainContents account objects ++ plainPrefixes objects
  ++ "</ListBucketResult>"

/-- `str.capitalize()`: first character uppercased, the rest lowercased. -/
def pyCapitalize (s : String) : String :=
  match s.data with
  | [] => ""
  | c :: rest => String.mk (c.toUpper :: rest.map Char.toLower)

/-- The ?location response body (middleware.py 667-675). -/
def locationBody (location : String) : String :=
  "<?xml version=\"1.0\" encoding=\"UTF-8\"?><LocationConstraint xmlns=\"http://s3.amazonaws.com/doc/2006-03-01/\""
  ++ (if location = "US" then "/>" else ">" ++ location ++ "</LocationConstraint>")

/-- The ?versioning response body (middleware.py 677-684). -/
def versioningBody (respHeaders : Env) : String :=
  "<VersioningConfiguration xmlns=\"http://s3.amazonaws.com/doc/2006-03-01/\"><Status>"
  ++ pyCapitalize ((alGet? respHeaders "x-container-versioning").getD "")
  ++ "</Status></VersioningConfiguration>"

/-- The ?logging response body (middleware.py 686-691). -/
def loggingBody : String :=
  "<?xml version=\"1.0\" encoding=\"UTF-8\"?><BucketLoggingStatus xmlns=\"http://doc.s3.amazonaws.com/2006-03-01\" />"

/-- What a `BucketController.GET` backend call produces: an error response,
a 200 XML response, or an uncaught Python exception. -/
inductive GetResult
  | err (e : ErrCode)
  | resp (body : String)
  | raised
  deriving DecidableEq, Repr

/-- Outcome of `BucketController.GET`: an error returned before the backend
is called, or a backend call with the request method in effect and the
response computed from the backend's answer. -/
inductive GetOutcome
  | earlyErr (e : ErrCode)
  | call (method : String) (result : GetResult)
  deriving DecidableEq, Repr

/-- The body of a 200 outcome, for stating concrete evaluations. -/
def outcomeBody : GetOutcome → Option String
  | .call _ (.resp b) => some b
  | _ => none

/-- Shallow embedding of `BucketController.GET` (middleware.py 620-802).
The backend enters as its status, response headers and decoded JSON object
list (the query-string rewriting of lines 636-648 only shapes that backend
request and is absorbed into those parameters).  The acl branch switches
the method to HEAD and builds the policy document from the response headers
without inspecting the status; all other branches first map non-200
statuses to error responses. -/
def bucketGET (env : Env) (location container account : String)
    (status : Nat) (respHeaders : Env) (objects : List SwiftObj) : GetOutcome :=
  let args := bucketArgs env
  if maxKeysOk args = false then .earlyErr .InvalidArgument
  else
    let max_keys := bucketMaxKeys args
    .call (if dictHas args "acl" then "HEAD" else "GET")
      (if dictHas args "acl" then
        .resp (get_s3_acl_body respHeaders containerAclHeaders .container)
      else if status ≠ 200 then
        (if status = 401 ∨ status = 403 then .err .AccessDenied
         else if status = 404 then .err .NoSuchBucket
         else .err .InvalidURI)
      else if dictHas args "location" then .resp (locationBody location)
      else if dictHas args "versioning" then .resp (versioningBody respHeaders)
      else if dictHas args "logging" then .resp loggingBody
      else if dictHas args "versions" then
        match versionsBody args container max_keys objects with
        | some b => .resp b
        | none => .raised
      else .resp (plainBody args container account max_keys objects))

/-! ## BucketController.PUT (middleware.py 804-873) -/

/-- Outcome of the pre-backend phase of `BucketController.PUT`: an error
response, or the environment forwarded to the backend. -/
inductive PutOutcome
  | earlyErr (e : ErrCode)
  | forward (env : Env)
  deriving DecidableEq, Repr

/-- The Content-Length precheck of `BucketController.PUT` (middleware.py
808-814): true when the header is absent or parses as a nonnegative
integer. -/
def contentLengthOk (env : Env) : Bool :=
  match alGet? env "CONTENT_LENGTH" with
  | none => true
  | some cl =>
      match pyInt? cl with
      | none => false
      | some n => decide (0 ≤ n)

/-- Env-side `acp_to_headers(env, resource)` (middleware.py 396-442): no
body, an XML parse error, or a walk error (both caught) give
MalformedACLError; otherwise the permission headers are written into the
environment. -/
def acp_to_headers_env (env : Env) (wsgiInput : Option String)
    (r : Resource) : Except ErrCode Env :=
  match wsgiInput with
  | none => .error .MalformedACLError
  | some body =>
      match parseXmlDoc body with
      | none => .error .MalformedACLError
      | some doc =>
          match parse_access_control_policy doc with
          | none => .error .MalformedACLError
          | some acp =>
              .ok ((acp_to_headers r acp.acl).foldl
                (fun e p => alSet e p.1 p.2) env)

/-- The ?versioning branch of `BucketController.PUT` (middleware.py
829-843): the configuration is read from `wsgi.input` (exhausted — empty —
when the acl branch already read it). -/
def putVersioningStep (env : Env) (conf : Option String) : Except ErrCode Env :=
  match conf with
  | none => .error .IllegalVersioningConfigurationException
  | some c =>
      if containsSub "Enabled".data c.data then
        .ok (alSet (alSet env "HTTP_X_CONTAINER_VERSIONING" "enabled")
          "REQUEST_METHOD" "POST")
      else if containsSub "Suspended".data c.data then
        .ok (alSet (alSet env "HTTP_X_CONTAINER_VERSIONING" "suspended")
          "REQUEST_METHOD" "POST")
      else .error .IllegalVersioningConfigurationException

/-- Shallow embedding of the pre-backend phase of `BucketController.PUT`
(middleware.py 804-856): Content-Length precheck, then the ?acl branch
(body parsed into ACL headers, method POST), then the ?versioning branch,
and on the plain path the removal and translation of `x-amz-acl`. -/
def bucketPUT (env : Env) (wsgiInput : Option String) : PutOutcome :=
  if contentLengthOk env = false then .earlyErr .InvalidArgument
  else
    let args := bucketArgs env
    let acl := dictHas args "acl"
    let versioning := dictHas args "versioning"
    match (if acl then
             (acp_to_headers_env env wsgiInput .container).map
               (fun e => alSet e "REQUEST_METHOD" "POST")
           else .ok env) with
    | .error e => .earlyErr e
    | .ok env1 =>
        match (if versioning then
                 putVersioningStep env1 (if acl then some "" else wsgiInput)
               else .ok env1) with
        | .error e => .earlyErr e
        | .ok env2 =>
            if acl = false ∧ versioning = false then
              match alGet? env2 "HTTP_X_AMZ_ACL" with
              | none => .forward env2
              | some amz =>
                  let env3 := alDel env2 "HTTP_X_AMZ_ACL"
                  match swift_acl_translate amz with
                  | .unsupported => .earlyErr .Unsupported
                  | .invalidArgument => .earlyErr .InvalidArgument
                  | .headers hs =>
                      .forward (hs.foldl (fun e p => alSet e p.1 p.2) env3)
            else .forward env2


/-! ## Lemmas and theorems -/

/-- Comparison of characters is comparison of their code points. -/
lemma char_le_iff (a b : Char) : a ≤ b ↔ a.toNat ≤ b.toNat := by
  simp [Char.le_def, UInt32.le_def, Char.toNat, UInt32.toNat, BitVec.le_def]

/-- Equality of characters is equality of their code points. -/
lemma char_eq_iff (a b : Char) : a = b ↔ a.toNat = b.toNat := by
  constructor
  · intro h; rw [h]
  · intro h; exact Char.ext (UInt32.ext h)

/-- Python `str.isdigit` for a single byte character, in terms of code points. -/
lemma isDigit_iff (c : Char) : c.isDigit = true ↔ 48 ≤ c.toNat ∧ c.toNat ≤ 57 := by
  simp [Char.isDigit, Char.le_def, UInt32.le_def, Char.toNat, UInt32.toNat, BitVec.le_def]

/-- Python `str.isalnum` for a single byte character, in terms of code points. -/
lemma isAlphanum_iff (c : Char) : c.isAlphanum = true ↔
    (65 ≤ c.toNat ∧ c.toNat ≤ 90) ∨ (97 ≤ c.toNat ∧ c.toNat ≤ 122) ∨
    (48 ≤ c.toNat ∧ c.toNat ≤ 57) := by
  simp [Char.isAlphanum, Char.isAlpha, Char.isUpper, Char.isLower, Char.isDigit,
    Char.le_def, UInt32.le_def, Char.toNat, UInt32.toNat, BitVec.le_def]
  omega

lemma foldl_digits_lower (s : List Char) (n : Nat) :
    n * 10 ^ s.length ≤ s.foldl (fun n c => 10 * n + (c.toNat - 48)) n := by
  induction s generalizing n with
  | nil => simp
  | cons c cs ih =>
      simp only [List.foldl_cons, List.length_cons]
      calc n * 10 ^ (cs.length + 1) = (n * 10) * 10 ^ cs.length := by ring
        _ ≤ (10 * n + (c.toNat - 48)) * 10 ^ cs.length := by
              apply Nat.mul_le_mul_right; omega
        _ ≤ cs.foldl (fun n c => 10 * n + (c.toNat - 48)) (10 * n + (c.toNat - 48)) :=
              ih _

lemma DecimalOctet_one (a : Char) :
    DecimalOctet [a] ↔ 48 ≤ a.toNat ∧ a.toNat ≤ 57 := by
  simp only [DecimalOctet, digitsVal, List.foldl_cons, List.foldl_nil, ne_eq,
    List.cons_ne_nil, not_false_iff, true_and, List.length_singleton,
    List.head?_cons, Option.some_inj, List.forall_mem_cons,
    List.not_mem_nil, false_implies, implies_true, and_true, isDigit_iff,
    char_eq_iff, show ('0' : Char).toNat = 48 from by decide]
  omega

lemma DecimalOctet_two (a b : Char) :
    DecimalOctet [a, b] ↔
      (49 ≤ a.toNat ∧ a.toNat ≤ 57) ∧ 48 ≤ b.toNat ∧ b.toNat ≤ 57 := by
  simp only [DecimalOctet, digitsVal, List.foldl_cons, List.foldl_nil, ne_eq,
    List.cons_ne_nil, not_false_iff, true_and, List.length_cons,
    List.length_singleton, List.head?_cons, Option.some_inj,
    List.forall_mem_cons, List.not_mem_nil, false_implies, implies_true,
    and_true, isDigit_iff, char_eq_iff,
    show ('0' : Char).toNat = 48 from by decide]
  omega

lemma DecimalOctet_three (a b c : Char) :
    DecimalOctet [a, b, c] ↔
      (49 ≤ a.toNat ∧ a.toNat ≤ 57) ∧ (48 ≤ b.toNat ∧ b.toNat ≤ 57) ∧
      (48 ≤ c.toNat ∧ c.toNat ≤ 57) ∧
      100 * (a.toNat - 48) + 10 * (b.toNat - 48) + (c.toNat - 48) ≤ 255 := by
  simp only [DecimalOctet, digitsVal, List.foldl_cons, List.foldl_nil, ne_eq,
    List.cons_ne_nil, not_false_iff, true_and, List.length_cons,
    List.length_singleton, List.head?_cons, Option.some_inj,
    List.forall_mem_cons, List.not_mem_nil, false_implies, implies_true,
    and_true, isDigit_iff, char_eq_iff,
    show ('0' : Char).toNat = 48 from by decide]
  omega

lemma DecimalOctet_long (a b c d : Char) (t : List Char) :
    ¬ DecimalOctet (a :: b :: c :: d :: t) := by
  intro ⟨_, hd, h0, hv⟩
  have ha := hd a (by simp)
  rw [isDigit_iff] at ha
  have h0' : a.toNat ≠ 48 := by
    intro hh
    apply h0 (by simp)
    simp only [List.head?_cons, Option.some_inj]
    rw [char_eq_iff, hh]
    decide
  have hbound := foldl_digits_lower (b :: c :: d :: t) (a.toNat - 48)
  simp only [digitsVal, List.foldl_cons, mul_zero, zero_add] at hv
  simp only [List.foldl_cons] at hbound
  have hpow : 1000 ≤ 10 ^ (b :: c :: d :: t).length := by
    have : (b :: c :: d :: t).length = t.length + 3 := by simp
    rw [this]
    calc (1000 : Nat) = 10 ^ 3 := by norm_num
      _ ≤ 10 ^ (t.length + 3) := Nat.pow_le_pow_right (by norm_num) (by omega)
  have h1 : 1 * 1000 ≤ (a.toNat - 48) * 10 ^ (b :: c :: d :: t).length :=
    Nat.mul_le_mul (by omega) hpow
  omega

/-- The octet regex group recognises exactly the decimal numerals of 0-255. -/
lemma ipv4Octet_iff (s : List Char) : ipv4Octet s = true ↔ DecimalOctet s := by
  match s with
  | [] =>
      simp [ipv4Octet, DecimalOctet]
  | [a] =>
      rw [DecimalOctet_one]
      simp only [ipv4Octet, isDigit_iff]
  | [a, b] =>
      rw [DecimalOctet_two]
      simp only [ipv4Octet, Bool.and_eq_true, decide_eq_true_eq, char_le_iff,
        isDigit_iff, show ('1' : Char).toNat = 49 from by decide,
        show ('9' : Char).toNat = 57 from by decide]
  | [a, b, c] =>
      rw [DecimalOctet_three]
      simp only [ipv4Octet, Bool.or_eq_true, Bool.and_eq_true,
        decide_eq_true_eq, char_le_iff, char_eq_iff, isDigit_iff,
        show ('0' : Char).toNat = 48 from by decide,
        show ('1' : Char).toNat = 49 from by decide,
        show ('2' : Char).toNat = 50 from by decide,
        show ('4' : Char).toNat = 52 from by decide,
        show ('5' : Char).toNat = 53 from by decide]
      omega
  | a :: b :: c :: d :: t =>
      simp only [ipv4Octet, Bool.false_eq_true, false_iff]
      exact DecimalOctet_long a b c d t

lemma splitDot_ne_nil (s : List Char) : splitDot s ≠ [] := by
  cases s with
  | nil => simp [splitDot]
  | cons c rest =>
      simp only [splitDot]
      split
      · simp
      · split <;> simp

lemma splitDot_no_dot (xs : List Char) (h : '.' ∉ xs) : splitDot xs = [xs] := by
  induction xs with
  | nil => rfl
  | cons c rest ih =>
      have hc : c ≠ '.' := fun hc => h (by simp [hc])
      have hr : '.' ∉ rest := fun hr => h (by simp [hr])
      simp only [splitDot, if_neg hc, ih hr]

lemma splitDot_append_dot (xs ys : List Char) (h : '.' ∉ xs) :
    splitDot (xs ++ '.' :: ys) = xs :: splitDot ys := by
  induction xs with
  | nil => simp [splitDot]
  | cons c rest ih =>
      have hc : c ≠ '.' := fun hc => h (by simp [hc])
      have hr : '.' ∉ rest := fun hr => h (by simp [hr])
      simp only [List.cons_append, splitDot, if_neg hc, List.append_eq]
      rw [ih hr]

lemma joinDot_splitDot (s : List Char) : joinDot (splitDot s) = s := by
  induction s with
  | nil => rfl
  | cons c rest ih =>
      by_cases hc : c = '.'
      · subst hc
        simp only [splitDot, if_pos rfl]
        rcases hps : splitDot rest with _ | ⟨p, ps⟩
        · exact absurd hps (splitDot_ne_nil rest)
        · rw [hps] at ih
          simp only [joinDot, List.nil_append]
          rw [ih]
      · simp only [splitDot, if_neg hc]
        rcases hps : splitDot rest with _ | ⟨p, ps⟩
        · exact absurd hps (splitDot_ne_nil rest)
        · rw [hps] at ih
          cases ps with
          | nil => simp only [joinDot] at ih ⊢; rw [ih]
          | cons q qs =>
              simp only [joinDot, List.cons_append] at ih ⊢
              rw [ih]

lemma DecimalOctet_no_dot (s : List Char) (h : DecimalOctet s) : '.' ∉ s := by
  intro hm
  have := h.2.1 '.' hm
  rw [isDigit_iff] at this
  have : ('.' : Char).toNat = 46 := by decide
  omega

/-- The embedded regex match recognises exactly claim C9's dotted-quad
IPv4 literals. -/
lemma ipv4Match_iff (name : List Char) :
    ipv4Match name = true ↔ IsIPv4Literal name := by
  constructor
  · intro h
    simp only [ipv4Match, Bool.and_eq_true, beq_iff_eq, List.all_eq_true] at h
    obtain ⟨hlen, hall⟩ := h
    rcases hps : splitDot name with _ | ⟨o1, _ | ⟨o2, _ | ⟨o3, _ | ⟨o4, _ | _⟩⟩⟩⟩ <;>
      rw [hps] at hlen <;> simp at hlen
    rw [hps] at hall
    have h1 := (ipv4Octet_iff o1).mp (hall o1 (by simp))
    have h2 := (ipv4Octet_iff o2).mp (hall o2 (by simp))
    have h3 := (ipv4Octet_iff o3).mp (hall o3 (by simp))
    have h4 := (ipv4Octet_iff o4).mp (hall o4 (by simp))
    refine ⟨o1, o2, o3, o4, ?_, h1, h2, h3, h4⟩
    have := joinDot_splitDot name
    rw [hps] at this
    simp only [joinDot, List.append_assoc] at this
    exact this.symm
  · rintro ⟨o1, o2, o3, o4, rfl, h1, h2, h3, h4⟩
    simp only [ipv4Match]
    rw [splitDot_append_dot _ _ (DecimalOctet_no_dot o1 h1),
      splitDot_append_dot _ _ (DecimalOctet_no_dot o2 h2),
      splitDot_append_dot _ _ (DecimalOctet_no_dot o3 h3),
      splitDot_no_dot _ (DecimalOctet_no_dot o4 h4)]
    have e1 := (ipv4Octet_iff o1).mpr h1
    have e2 := (ipv4Octet_iff o2).mpr h2
    have e3 := (ipv4Octet_iff o3).mpr h3
    have e4 := (ipv4Octet_iff o4).mpr h4
    simp [e1, e2, e3, e4]

lemma lastIsAlnum_iff (name : List Char) :
    lastIsAlnum name = true ↔ ∃ c, name.getLast? = some c ∧ c.isAlphanum = true := by
  simp only [lastIsAlnum]
  rcases h : name.getLast? with _ | c <;> simp [h]

lemma headIsAlnum_iff (name : List Char) :
    headIsAlnum name = true ↔ ∃ c, name.head? = some c ∧ c.isAlphanum = true := by
  simp only [headIsAlnum]
  rcases h : name.head? with _ | c <;> simp [h]

/-- C9: `validate_bucket_name(name)` returns true if and only if the length
of `name` is between 3 and 63 inclusive, `name` contains no underscore, the
first and last characters are alphanumeric, `name` contains none of the
substrings `..`, `.-` and `-.`, and `name` is not a dotted-quad IPv4 literal
(four dot-separated numbers each in 0-255). -/
theorem C9_validate_bucket_name_iff (name : List Char) :
    validate_bucket_name name = true ↔
      (3 ≤ name.length ∧ name.length ≤ 63 ∧ '_' ∉ name ∧
       (∃ c, name.head? = some c ∧ c.isAlphanum = true) ∧
       (∃ c, name.getLast? = some c ∧ c.isAlphanum = true) ∧
       ¬ ['.', '.'] <:+: name ∧ ¬ ['.', '-'] <:+: name ∧ ¬ ['-', '.'] <:+: name ∧
       ¬ IsIPv4Literal name) := by
  rw [← headIsAlnum_iff, ← lastIsAlnum_iff, ← ipv4Match_iff]
  simp only [validate_bucket_name, containsSub]
  split_ifs with h1 h2 h3
  · simp only [Bool.false_eq_true, false_iff]
    rintro ⟨hl, hu, hund, hh, hlast, hs1, hs2, hs3, hip⟩
    simp only [Bool.or_eq_true, decide_eq_true_eq, Bool.not_eq_eq_eq_not,
      Bool.not_true] at h1
    rcases h1 with (((hm | hlen) | hlen) | hal)
    · exact hund hm
    · omega
    · omega
    · rw [hlast] at hal; exact Bool.noConfusion hal
  · simp only [Bool.false_eq_true, false_iff]
    rintro ⟨hl, hu, hund, hh, hlast, hs1, hs2, hs3, hip⟩
    simp only [Bool.or_eq_true, decide_eq_true_eq, Bool.not_eq_eq_eq_not,
      Bool.not_true] at h2
    rcases h2 with (((hi1 | hi2) | hi3) | hah)
    · exact hs2 hi1
    · exact hs3 hi2
    · exact hs1 hi3
    · rw [hh] at hah; exact Bool.noConfusion hah
  · simp only [Bool.false_eq_true, false_iff]
    rintro ⟨hl, hu, hund, hh, hlast, hs1, hs2, hs3, hip⟩
    exact hip h3
  · simp only [true_iff]
    simp only [Bool.or_eq_true, decide_eq_true_eq, Bool.not_eq_eq_eq_not,
      Bool.not_true, not_or] at h1 h2
    obtain ⟨⟨⟨hm, hlen1⟩, hlen2⟩, hal⟩ := h1
    obtain ⟨⟨⟨hi1, hi2⟩, hi3⟩, hah⟩ := h2
    refine ⟨by omega, by omega, hm, ?_, ?_, hi3, hi1, hi2, h3⟩
    · rcases hb : headIsAlnum name with _ | _
      · exact absurd hb hah
      · rfl
    · rcases hb : lastIsAlnum name with _ | _
      · exact absurd hb hal
      · rfl

/-- C8 (corrected): for every signed request carrying a Date header, the
clock-skew gate rejects with AccessDenied when the header fails RFC-2822
parsing; when the parsed tuple lies outside `datetime`'s field ranges the
middleware instead crashes with an uncaught ValueError (neither an error
response nor further processing); for a valid tuple it rejects with
AccessDenied when the time is earlier than the Unix epoch, rejects with
RequestTimeTooSkewed when the absolute difference to the current time
exceeds 10 minutes, and otherwise lets the request proceed. -/
theorem C8_clock_skew_check (now : Int) :
    dateSkewCheck none now = .err ErrCode.AccessDenied ∧
    (∀ t : DateTuple, datetimeValid t = false →
      dateSkewCheck (some t) now = .raised) ∧
    (∀ t : DateTuple, datetimeValid t = true → dtSeconds t < 0 →
      dateSkewCheck (some t) now = .err ErrCode.AccessDenied) ∧
    (∀ t : DateTuple, datetimeValid t = true → 0 ≤ dtSeconds t →
      600 < |now - dtSeconds t| →
      dateSkewCheck (some t) now = .err ErrCode.RequestTimeTooSkewed) ∧
    (∀ t : DateTuple, datetimeValid t = true → 0 ≤ dtSeconds t →
      |now - dtSeconds t| ≤ 600 →
      dateSkewCheck (some t) now = .proceed) := by
  have hnf : ∀ t : DateTuple, datetimeValid t = true →
      ¬ datetimeValid t = false := by
    intro t ht h
    rw [ht] at h
    exact Bool.noConfusion h
  refine ⟨rfl, ?_, ?_, ?_, ?_⟩
  · intro t ht
    simp only [dateSkewCheck]
    rw [if_pos ht]
  · intro t ht hd
    simp only [dateSkewCheck]
    rw [if_neg (hnf t ht), if_pos hd]
  · intro t ht h0 habs
    have h := lt_abs.mp habs
    simp only [dateSkewCheck]
    rw [if_neg (hnf t ht), if_neg (by omega), if_pos (by omega)]
  · intro t ht h0 habs
    have h := abs_le.mp habs
    simp only [dateSkewCheck]
    rw [if_neg (hnf t ht), if_neg (by omega), if_neg (by omega)]

/-- C8 counterexample to the original trichotomy: `Date: 99 Jan 2010
00:00:00` passes `email.utils.parsedate` (tuple `(2010, 1, 99, 0, 0, 0,
...)`) but `datetime.datetime(2010, 1, 99, 0, 0, 0)` raises ValueError at
middleware.py 1124, so the gate neither returns an error response nor
proceeds. -/
theorem C8_invalid_day_counterexample :
    dateSkewCheck (some ⟨2010, 1, 99, 0, 0, 0⟩) 0 = .raised := by decide

/-- C8 witness: concrete valid dates for each arm — 2010-01-15 against a
matching clock proceeds, against a clock 601 seconds ahead is
RequestTimeTooSkewed, 1969-12-31 23:59:59 is pre-epoch AccessDenied, and an
unparseable Date is AccessDenied. -/
theorem C8_clock_skew_check_witness :
    dateSkewCheck (some ⟨2010, 1, 15, 0, 0, 0⟩) 1263513600 = .proceed ∧
    dateSkewCheck (some ⟨2010, 1, 15, 0, 0, 0⟩) 1263514201
      = .err ErrCode.RequestTimeTooSkewed ∧
    dateSkewCheck (some ⟨1969, 12, 31, 23, 59, 59⟩) 0
      = .err ErrCode.AccessDenied ∧
    dateSkewCheck none 0 = .err ErrCode.AccessDenied :=
  ⟨(C8_clock_skew_check 1263513600).2.2.2.2 ⟨2010, 1, 15, 0, 0, 0⟩
      (by decide) (by decide) (by decide),
   (C8_clock_skew_check 1263514201).2.2.2.1 ⟨2010, 1, 15, 0, 0, 0⟩
      (by decide) (by decide) (by decide),
   (C8_clock_skew_check 0).2.2.1 ⟨1969, 12, 31, 23, 59, 59⟩
      (by decide) (by decide),
   (C8_clock_skew_check 0).1⟩

/-! ### Association-list lemmas -/

lemma alGet?_alSet (env : Env) (k v k' : String) :
    alGet? (alSet env k v) k' = if k' = k then some v else alGet? env k' := by
  induction env with
  | nil =>
      by_cases h : k' = k
      · subst h; simp [alSet, alGet?]
      · simp [alSet, alGet?, h, Ne.symm h]
  | cons p rest ih =>
      obtain ⟨k0, v0⟩ := p
      by_cases h0 : k0 = k <;> by_cases h : k' = k
      · subst h0; subst h; simp [alSet, alGet?]
      · subst h0; simp [alSet, alGet?, h, Ne.symm h]
      · subst h; simp [alSet, alGet?, h0, ih]
      · by_cases h2 : k0 = k'
        · subst h2; simp [alSet, alGet?, h0, h]
        · simp [alSet, alGet?, h0, h, h2, ih]

lemma alGet?_alDel (env : Env) (k k' : String) :
    alGet? (alDel env k) k' = if k' = k then none else alGet? env k' := by
  induction env with
  | nil => simp [alDel, alGet?]
  | cons p rest ih =>
      obtain ⟨k0, v0⟩ := p
      by_cases h0 : k0 = k <;> by_cases h : k' = k
      · subst h0; subst h; simp [alDel, alGet?, ih]
      · subst h0; simp [alDel, alGet?, h, Ne.symm h, ih]
      · subst h; simp [alDel, alGet?, h0, ih]
      · by_cases h2 : k0 = k'
        · subst h2; simp [alDel, alGet?, h0, h]
        · simp [alDel, alGet?, h0, h, h2, ih]

/-! ### Content-MD5 lemmas -/

lemma contentMD5ToEtag_ok (v : String) (b : Nat) (bs : List Nat)
    (hv : v ≠ "") (hd : a2b_base64 v.data = some (b :: bs)) :
    contentMD5ToEtag v = .ok (String.mk (hexOfBytes (b :: bs))) := by
  have hne : String.mk (hexOfBytes (b :: bs)) ≠ "" := by
    intro h
    have h2 := congrArg String.data h
    simp [hexOfBytes] at h2
  simp only [contentMD5ToEtag, if_neg hv, hd]
  rw [if_neg hne]

lemma putHeaderLoop_no_md5 (items : List (String × String)) :
    ∀ env : Env, (∀ p ∈ items, p.1 ≠ "HTTP_CONTENT_MD5") →
    ∃ env', putHeaderLoop items env = .ok env' ∧
      alGet? env' "HTTP_ETAG" = alGet? env "HTTP_ETAG" := by
  induction items with
  | nil => exact fun env _ => ⟨env, rfl, rfl⟩
  | cons p items ih =>
      intro env hno
      obtain ⟨k, v⟩ := p
      have hk : k ≠ "HTTP_CONTENT_MD5" := hno (k, v) (by simp)
      have htail : ∀ p ∈ items, p.1 ≠ "HTTP_CONTENT_MD5" :=
        fun p hp => hno p (by simp [hp])
      simp only [putHeaderLoop]
      by_cases h1 : strHasPrefix "HTTP_X_AMZ_META_" k = true
      · rw [if_pos h1]
        obtain ⟨env', he, hg⟩ := ih _ htail
        refine ⟨env', he, ?_⟩
        rw [hg, alGet?_alSet, alGet?_alDel]
        have hk1 : "HTTP_ETAG" ≠ k := by
          intro hh; rw [← hh] at h1; exact absurd h1 (by decide)
        have hk2 : "HTTP_ETAG" ≠ "HTTP_X_OBJECT_META_" ++ k.drop 16 := by
          intro hh
          have hlen := congrArg String.length hh
          rw [String.length_append] at hlen
          have e1 : ("HTTP_ETAG" : String).length = 9 := rfl
          have e2 : ("HTTP_X_OBJECT_META_" : String).length = 19 := rfl
          omega
        rw [if_neg hk2, if_neg hk1]
      · rw [if_neg h1, if_neg hk]
        by_cases h3 : k = "HTTP_X_AMZ_COPY_SOURCE"
        · rw [if_pos h3]
          obtain ⟨env', he, hg⟩ := ih _ htail
          refine ⟨env', he, ?_⟩
          rw [hg, alGet?_alSet, if_neg (by decide)]
        · rw [if_neg h3]
          exact ih _ htail

lemma putHeaderLoop_md5 (items : List (String × String)) :
    ∀ (env : Env) (v : String) (bs : List Nat),
      (items.map Prod.fst).Nodup →
      ("HTTP_CONTENT_MD5", v) ∈ items →
      v ≠ "" → a2b_base64 v.data = some bs → bs ≠ [] →
      ∃ env', putHeaderLoop items env = .ok env' ∧
        alGet? env' "HTTP_ETAG" = some (String.mk (hexOfBytes bs)) := by
  induction items with
  | nil => intro env v bs _ hmem; cases hmem
  | cons p items ih =>
      intro env v bs hnd hmem hv hd hne
      obtain ⟨k, u⟩ := p
      rw [List.map_cons, List.nodup_cons] at hnd
      rcases List.mem_cons.mp hmem with heq | htail
      · rw [Prod.mk.injEq] at heq
        obtain ⟨hk, hu⟩ := heq
        subst hk; subst hu
        simp only [putHeaderLoop]
        rw [if_neg (by decide), if_pos (by trivial)]
        rcases hbs : bs with _ | ⟨b, bs'⟩
        · exact absurd hbs hne
        · rw [hbs] at hd
          rw [contentMD5ToEtag_ok v b bs' hv hd]
          have hno : ∀ p ∈ items, p.1 ≠ "HTTP_CONTENT_MD5" := by
            intro p hp hpk
            exact hnd.1 (List.mem_map.mpr ⟨p, hp, hpk⟩)
          obtain ⟨env', he, hg⟩ := putHeaderLoop_no_md5 items _ hno
          refine ⟨env', he, ?_⟩
          rw [hg, alGet?_alSet, if_pos rfl]
      · have hk : k ≠ "HTTP_CONTENT_MD5" := by
          intro hh; subst hh
          exact hnd.1 (List.mem_map.mpr ⟨_, htail, rfl⟩)
        simp only [putHeaderLoop]
        by_cases h1 : strHasPrefix "HTTP_X_AMZ_META_" k = true
        · rw [if_pos h1]
          exact ih _ v bs hnd.2 htail hv hd hne
        · rw [if_neg h1, if_neg hk]
          by_cases h3 : k = "HTTP_X_AMZ_COPY_SOURCE"
          · rw [if_pos h3]
            exact ih _ v bs hnd.2 htail hv hd hne
          · rw [if_neg h3]
            exact ih _ v bs hnd.2 htail hv hd hne

/-- C3: on PUT Object without the acl sub-resource, a present Content-MD5
header value is dispatched as: empty value → InvalidDigest; base64 decode
failure → InvalidDigest; decoding to the empty byte string →
SignatureDoesNotMatch; otherwise the decoded bytes, hex-encoded, become the
outbound HTTP_ETAG header; and concretely `1B2M2Y8AsgTpgAmY7PhCfg==`
yields ETag `d41d8cd98f00b204e9800998ecf8427e`. -/
theorem C3_content_md5_dispatch (v : String) :
    (v = "" → contentMD5ToEtag v = .error ErrCode.InvalidDigest) ∧
    (a2b_base64 v.data = none → contentMD5ToEtag v = .error ErrCode.InvalidDigest) ∧
    (v ≠ "" → a2b_base64 v.data = some [] →
      contentMD5ToEtag v = .error ErrCode.SignatureDoesNotMatch) ∧
    (∀ b bs, v ≠ "" → a2b_base64 v.data = some (b :: bs) →
      contentMD5ToEtag v = .ok (String.mk (hexOfBytes (b :: bs)))) ∧
    (∀ (env : Env) (bs : List Nat), (env.map Prod.fst).Nodup →
      ("HTTP_CONTENT_MD5", v) ∈ env → v ≠ "" →
      a2b_base64 v.data = some bs → bs ≠ [] →
      ∃ env', objectPutRewriteHeaders env = .ok env' ∧
        alGet? env' "HTTP_ETAG" = some (String.mk (hexOfBytes bs))) ∧
    contentMD5ToEtag "1B2M2Y8AsgTpgAmY7PhCfg==" =
      .ok "d41d8cd98f00b204e9800998ecf8427e" := by
  refine ⟨?_, ?_, ?_, ?_, ?_, by decide⟩
  · intro hv; simp [contentMD5ToEtag, hv]
  · intro hd
    by_cases hv : v = ""
    · simp [contentMD5ToEtag, hv]
    · simp [contentMD5ToEtag, hv, hd]
  · intro hv hd
    simp [contentMD5ToEtag, hv, hd, hexOfBytes]
  · intro b bs hv hd
    exact contentMD5ToEtag_ok v b bs hv hd
  · intro env bs hnd hmem hv hd hne
    exact putHeaderLoop_md5 env env v bs hnd hmem hv hd hne

/-- C3 witness: concrete instances of each dispatch case, including a full
environment run placing the hex-encoded digest in HTTP_ETAG. -/
theorem C3_content_md5_dispatch_witness :
    contentMD5ToEtag "" = .error ErrCode.InvalidDigest ∧
    contentMD5ToEtag "A" = .error ErrCode.InvalidDigest ∧
    contentMD5ToEtag "!!" = .error ErrCode.SignatureDoesNotMatch ∧
    (∃ env', objectPutRewriteHeaders
        [("HTTP_CONTENT_MD5", "1B2M2Y8AsgTpgAmY7PhCfg==")] = .ok env' ∧
      alGet? env' "HTTP_ETAG" = some (String.mk (hexOfBytes
        [212, 29, 140, 217, 143, 0, 178, 4, 233, 128, 9, 152, 236, 248, 66, 126]))) :=
  ⟨(C3_content_md5_dispatch "").1 rfl,
   (C3_content_md5_dispatch "A").2.1 (by decide),
   (C3_content_md5_dispatch "!!").2.2.1 (by decide) (by decide),
   (C3_content_md5_dispatch "1B2M2Y8AsgTpgAmY7PhCfg==").2.2.2.2.1
     [("HTTP_CONTENT_MD5", "1B2M2Y8AsgTpgAmY7PhCfg==")] _ (by decide) (by decide)
     (by decide) (by decide) (by decide)⟩

/-! ### acp_to_headers lemmas -/

lemma pmGet_pmAdd (pm : PermMap) (k u k' : String) :
    pmGet (pmAdd pm k u) k' =
      if k' = k then
        (if u ∈ pmGet pm k then pmGet pm k else pmGet pm k ++ [u])
      else pmGet pm k' := by
  induction pm with
  | nil =>
      by_cases h : k' = k
      · subst h; simp [pmAdd, pmGet]
      · simp [pmAdd, pmGet, h, Ne.symm h]
  | cons p rest ih =>
      obtain ⟨k0, v0⟩ := p
      by_cases h0 : k0 = k <;> by_cases h : k' = k
      · subst h0; subst h; simp [pmAdd, pmGet]
      · subst h0; simp [pmAdd, pmGet, h, Ne.symm h]
      · subst h; simp [pmAdd, pmGet, h0, Ne.symm h0, ih]
      · by_cases h2 : k0 = k'
        · subst h2; simp [pmAdd, pmGet, h0, h]
        · simp [pmAdd, pmGet, h0, h, h2, ih]

lemma pmHas_pmAdd (pm : PermMap) (k u k' : String) (h : pmHas pm k' = true) :
    pmHas (pmAdd pm k u) k' = true := by
  induction pm with
  | nil => cases h
  | cons p rest ih =>
      obtain ⟨k0, v0⟩ := p
      simp only [pmHas, Bool.or_eq_true, beq_iff_eq] at h
      simp only [pmAdd]
      by_cases h0 : k0 = k
      · rw [if_pos h0]
        simp only [pmHas, Bool.or_eq_true, beq_iff_eq]
        rcases h with h | h
        · exact Or.inl (h0 ▸ h)
        · exact Or.inr h
      · rw [if_neg h0]
        simp only [pmHas, Bool.or_eq_true, beq_iff_eq]
        rcases h with h | h
        · exact Or.inl h
        · exact Or.inr (ih h)

lemma container_write_key_ne (t : String) :
    "HTTP_X_CONTAINER_WRITE" ≠ "HTTP_X_CONTAINER_ACL_" ++ t := by
  intro h
  have hd := congrArg String.data h
  rw [String.data_append] at hd
  have h17 := congrArg (fun l => l[17]?) hd
  simp only at h17
  rw [List.getElem?_append_left (by decide)] at h17
  exact absurd h17 (by decide)

lemma aclHeaderKey_container_inj (q p : String)
    (h : aclHeaderKey .container q = aclHeaderKey .container p) : q = p := by
  simp only [aclHeaderKey] at h
  by_cases hq : q = "WRITE" <;> by_cases hp : p = "WRITE"
  · rw [hq, hp]
  · rw [if_pos hq, if_neg hp] at h
    subst hq
    rw [show ("HTTP_X_CONTAINER_" ++ "WRITE" : String) = "HTTP_X_CONTAINER_WRITE"
      from rfl] at h
    exact absurd h (container_write_key_ne p)
  · rw [if_neg hq, if_pos hp] at h
    subst hp
    rw [show ("HTTP_X_CONTAINER_" ++ "WRITE" : String) = "HTTP_X_CONTAINER_WRITE"
      from rfl] at h
    exact absurd h.symm (container_write_key_ne q)
  · rw [if_neg hq, if_neg hp] at h
    have hd := congrArg String.data h
    rw [String.data_append, String.data_append] at hd
    have hqp := List.append_cancel_left hd
    rcases q with ⟨qd⟩
    rcases p with ⟨pd⟩
    exact congrArg String.mk hqp

lemma insertUnique_idem (x : String) (xs : List String) :
    (if x ∈ (if x ∈ xs then xs else xs ++ [x]) then
      (if x ∈ xs then xs else xs ++ [x])
     else (if x ∈ xs then xs else xs ++ [x]) ++ [x]) =
    if x ∈ xs then xs else xs ++ [x] := by
  by_cases h : x ∈ xs <;> simp [h]

lemma pmGet_addUserPerms (r : Resource) (p0 : String)
    (hinj : ∀ q, aclHeaderKey r q = aclHeaderKey r p0 → q = p0)
    (perms : List String) :
    ∀ (pm : PermMap) (u : String),
    pmGet (addUserPerms r pm u perms) (aclHeaderKey r p0) =
      if p0 ∈ perms then
        (if replaceUsername u ∈ pmGet pm (aclHeaderKey r p0) then
          pmGet pm (aclHeaderKey r p0)
         else pmGet pm (aclHeaderKey r p0) ++ [replaceUsername u])
      else pmGet pm (aclHeaderKey r p0) := by
  induction perms with
  | nil => intro pm u; simp [addUserPerms]
  | cons q perms ih =>
      intro pm u
      have step : addUserPerms r pm u (q :: perms) =
          addUserPerms r (pmAdd pm (aclHeaderKey r q) (replaceUsername u)) u perms := rfl
      rw [step, ih]
      by_cases hq : q = p0
      · subst hq
        rw [pmGet_pmAdd]
        rw [if_pos rfl, if_pos (List.mem_cons_self q perms)]
        by_cases hmem : q ∈ perms
        · rw [if_pos hmem]
          exact insertUnique_idem (replaceUsername u) (pmGet pm (aclHeaderKey r q))
        · rw [if_neg hmem]
      · have hkey : aclHeaderKey r q ≠ aclHeaderKey r p0 := fun hh => hq (hinj q hh)
        have hne : ¬(aclHeaderKey r p0 = aclHeaderKey r q) := fun hh => hkey hh.symm
        rw [pmGet_pmAdd, if_neg hne]
        have hm : (p0 ∈ q :: perms) ↔ (p0 ∈ perms) := by
          rw [List.mem_cons]
          constructor
          · rintro (hh | hh)
            · exact absurd hh.symm hq
            · exact hh
          · exact fun hh => Or.inr hh
        simp only [hm]

lemma pmGet_addAclUser (r : Resource) (p0 : String)
    (hinj : ∀ q, aclHeaderKey r q = aclHeaderKey r p0 → q = p0)
    (pm : PermMap) (user : AclUser) :
    pmGet (addAclUser r pm user) (aclHeaderKey r p0) =
      (match user.user with
       | none => pmGet pm (aclHeaderKey r p0)
       | some u =>
           if u = "" then pmGet pm (aclHeaderKey r p0)
           else if p0 ∈ effectivePerms user.permissions then
             (if replaceUsername u ∈ pmGet pm (aclHeaderKey r p0) then
               pmGet pm (aclHeaderKey r p0)
              else pmGet pm (aclHeaderKey r p0) ++ [replaceUsername u])
           else pmGet pm (aclHeaderKey r p0)) := by
  rcases user with ⟨hu, perms⟩
  rcases hu with _ | u
  · rfl
  · simp only [addAclUser]
    by_cases hue : u = ""
    · simp [hue]
    · rw [if_neg hue]
      simp only [hue, if_false]
      exact pmGet_addUserPerms r p0 hinj (effectivePerms perms) pm u

lemma pmGet_foldl_addAclUser (r : Resource) (p0 : String)
    (hinj : ∀ q, aclHeaderKey r q = aclHeaderKey r p0 → q = p0)
    (acl : List AclUser) :
    ∀ pm : PermMap,
    pmGet (acl.foldl (addAclUser r) pm) (aclHeaderKey r p0) =
      acl.foldl (fun xs user =>
        match user.user with
        | none => xs
        | some u =>
            if u = "" then xs
            else if p0 ∈ effectivePerms user.permissions then
              if replaceUsername u ∈ xs then xs else xs ++ [replaceUsername u]
            else xs) (pmGet pm (aclHeaderKey r p0)) := by
  induction acl with
  | nil => intro pm; rfl
  | cons user acl ih =>
      intro pm
      rw [List.foldl_cons, List.foldl_cons, ih, pmGet_addAclUser r p0 hinj]

lemma pmHas_addUserPerms (r : Resource) (perms : List String) :
    ∀ (pm : PermMap) (u : String) (k : String), pmHas pm k = true →
      pmHas (addUserPerms r pm u perms) k = true := by
  induction perms with
  | nil => intro pm u k h; exact h
  | cons q perms ih =>
      intro pm u k h
      exact ih _ u k (pmHas_pmAdd pm _ _ k h)

lemma pmHas_foldl_addAclUser (r : Resource) (acl : List AclUser) :
    ∀ (pm : PermMap) (k : String), pmHas pm k = true →
      pmHas (acl.foldl (addAclUser r) pm) k = true := by
  induction acl with
  | nil => intro pm k h; exact h
  | cons user acl ih =>
      intro pm k h
      rw [List.foldl_cons]
      apply ih
      rcases user with ⟨hu, perms⟩
      rcases hu with _ | u
      · exact h
      · simp only [addAclUser]
        by_cases hue : u = ""
        · simp [hue, h]
        · rw [if_neg hue]
          exact pmHas_addUserPerms r _ pm u k h

lemma alGet?_map_join (pm : PermMap) (k : String) (h : pmHas pm k = true) :
    alGet? (pm.map (fun p => (p.1, String.intercalate "," p.2))) k =
      some (String.intercalate "," (pmGet pm k)) := by
  induction pm with
  | nil => cases h
  | cons p rest ih =>
      obtain ⟨k0, v0⟩ := p
      simp only [pmHas, Bool.or_eq_true, beq_iff_eq] at h
      by_cases h0 : k0 = k
      · subst h0; simp [alGet?, pmGet]
      · simp only [List.map_cons, alGet?, pmGet, if_neg h0]
        rcases h with h | h
        · exact absurd h h0
        · exact ih h

/-- C6: for every parsed AccessControlPolicy handed to `acp_to_headers` on
a container, each emitted header value is the comma-joined duplicate-free
grantee list for its permission — WRITE grantees in `HTTP_X_CONTAINER_WRITE`,
READ, READ_ACP, WRITE_ACP grantees in `HTTP_X_CONTAINER_ACL_*` — where a
grant with FULL_CONTROL counts for all four permissions and the AllUsers
group URI is replaced by `.r:*` before emission. -/
theorem C6_acp_to_headers_container (acl : List AclUser) :
    alGet? (acp_to_headers .container acl) "HTTP_X_CONTAINER_WRITE" =
      some (String.intercalate "," (granteesFor "WRITE" acl)) ∧
    alGet? (acp_to_headers .container acl) "HTTP_X_CONTAINER_ACL_READ" =
      some (String.intercalate "," (granteesFor "READ" acl)) ∧
    alGet? (acp_to_headers .container acl) "HTTP_X_CONTAINER_ACL_READ_ACP" =
      some (String.intercalate "," (granteesFor "READ_ACP" acl)) ∧
    alGet? (acp_to_headers .container acl) "HTTP_X_CONTAINER_ACL_WRITE_ACP" =
      some (String.intercalate "," (granteesFor "WRITE_ACP" acl)) ∧
    (∀ perms : List String, "FULL_CONTROL" ∈ perms →
      effectivePerms perms = ["READ", "WRITE", "READ_ACP", "WRITE_ACP"]) ∧
    replaceUsername AMZ_ALL_USERS = ".r:*" := by
  have main : ∀ p0 : String,
      aclHeaderKey .container p0 = aclHeaderKey .container p0 →
      pmHas (initPerms .container) (aclHeaderKey .container p0) = true →
      alGet? (acp_to_headers .container acl) (aclHeaderKey .container p0) =
        some (String.intercalate "," (granteesFor p0 acl)) := by
    intro p0 _ hhas
    have hinj : ∀ q, aclHeaderKey .container q = aclHeaderKey .container p0 → q = p0 :=
      fun q h => aclHeaderKey_container_inj q p0 h
    have h1 := pmGet_foldl_addAclUser .container p0 hinj acl (initPerms .container)
    have h0 : pmGet (initPerms .container) (aclHeaderKey .container p0) = [] := by
      rcases hk : aclHeaderKey .container p0 with _
      simp only [pmGet, initPerms]
      split_ifs <;> rfl
    rw [h0] at h1
    have hpres := pmHas_foldl_addAclUser .container acl (initPerms .container) _ hhas
    rw [acp_to_headers, alGet?_map_join _ _ hpres, h1]
    rfl
  refine ⟨?_, ?_, ?_, ?_, fun perms h => by simp [effectivePerms, h], by rfl⟩
  · exact main "WRITE" rfl (by decide)
  · exact main "READ" rfl (by decide)
  · exact main "READ_ACP" rfl (by decide)
  · exact main "WRITE_ACP" rfl (by decide)

/-! ### Parser round-trip lemmas -/

lemma xml_escape_clean (o : String) (h : ∀ c ∈ o.data, c ≠ '&' ∧ c ≠ '<' ∧ c ≠ '>') :
    xml_escape o = o := by
  suffices H : ∀ l : List Char, (∀ c ∈ l, c ≠ '&' ∧ c ≠ '<' ∧ c ≠ '>') →
      l.flatMap (fun c =>
        if c = '&' then "&amp;".data
        else if c = '<' then "&lt;".data
        else if c = '>' then "&gt;".data
        else [c]) = l by
    unfold xml_escape
    rw [H o.data h]
  intro l
  induction l with
  | nil => intro _; rfl
  | cons c t ih =>
      intro hcl
      obtain ⟨h1, h2, h3⟩ := hcl c (by simp)
      simp only [List.flatMap_cons, if_neg h1, if_neg h2, if_neg h3,
        ih (fun x hx => hcl x (by simp [hx]))]
      rfl

lemma str_append_assoc (a b c : String) : (a ++ b) ++ c = a ++ (b ++ c) := by
  cases a with | mk la =>
  cases b with | mk lb =>
  cases c with | mk lc =>
  show String.mk ((la ++ lb) ++ lc) = String.mk (la ++ (lb ++ lc))
  rw [List.append_assoc]

lemma append_ite (c : Prop) [Decidable c] (b u v : String) :
    (if c then b ++ u else b ++ v) = b ++ (if c then u else v) := by
  split <;> rfl

lemma str_empty_append (s : String) : "" ++ s = s := by
  cases s with | mk l =>
  show String.mk ([] ++ l) = String.mk l
  rw [List.nil_append]

/-- C1: the sub-resource parameters of the canonical string are appended in
query-string order, not sorted.  On `GET /bucket?versions&acl` (no other
headers) the suffix is `?versions&acl`; reversing the query reverses the
suffix; the spec's (and the in-code comment's) lexicographic order `?acl&versions`
is not produced. -/
theorem C1_subresources_query_order :
    canonical_string ⟨"GET", [], "/bucket?versions&acl"⟩
        = "GET\n\n\n/bucket?versions&acl" ∧
    canonical_string ⟨"GET", [], "/bucket?acl&versions"⟩
        = "GET\n\n\n/bucket?acl&versions" ∧
    canonical_string ⟨"GET", [], "/bucket?versions&acl"⟩
        ≠ "GET\n\n\n/bucket?acl&versions" := by
  refine ⟨?_, ?_, ?_⟩ <;> decide

/-- C4 (corrected): after the content-type line the canonical string holds
an empty line when `x-amz-date` is among the amz headers, else the Date
header's value and a newline when that header is present, and otherwise no
date line at all — the date line is not present in every request's
canonical string. -/
theorem C4_canonical_string_date_line (req : S3Req) :
    canonical_string req
      = canonHeadLines req
        ++ (if hasAmzDate req = true then "\n"
            else if hHas req.headers "Date" = true then
              (hFind? req.headers "Date").getD "" ++ "\n"
            else "")
        ++ canonAmzLines req ++ canonResourcePart req := by
  unfold canonical_string canonHeadLines canonAmzLines canonResourcePart hasAmzDate
  dsimp only
  by_cases h1 : "x-amz-date" ∈ amzSortedKeys req.headers
  · rw [if_pos h1,
      if_pos (show decide ("x-amz-date" ∈ amzSortedKeys req.headers) = true
        from decide_eq_true h1)]
    simp only [str_append_assoc, append_ite]
  · rw [if_neg h1,
      if_neg (show ¬decide ("x-amz-date" ∈ amzSortedKeys req.headers) = true
        from by rw [decide_eq_false h1]; exact Bool.false_ne_true)]
    by_cases h2 : hHas req.headers "Date" = true
    · rw [if_pos h2, if_pos h2]
      simp only [str_append_assoc, append_ite]
    · rw [if_neg h2, if_neg h2]
      simp only [str_append_assoc, str_empty_append, append_ite]

/-- C4 counterexample to "present in every request": a request with neither
`x-amz-date` nor `Date` yields a canonical string with only the three
header newlines and no date line. -/
theorem C4_no_date_counterexample :
    canonical_string ⟨"GET", [], "/bucket"⟩ = "GET\n\n\n/bucket" ∧
    (canonical_string ⟨"GET", [], "/bucket"⟩).data.count '\n' = 3 := by
  refine ⟨?_, ?_⟩ <;> decide

/-- C5 (corrected): on PUT Bucket with neither ?acl nor ?versioning and a
well-formed (or absent) Content-Length, the `x-amz-acl` header is removed
and translated: absent header forwards the environment unchanged;
`private`, `public-read` and `public-read-write` set the listed container
headers; `authenticated-read` gives Unsupported; anything else gives
InvalidArgument.  The Content-Length hypothesis is necessary: an unparsable
Content-Length returns InvalidArgument before any of this (see the
counterexample). -/
theorem C5_put_bucket_acl_translation (env : Env) (inp : Option String)
    (hcl : contentLengthOk env = true)
    (hacl : dictHas (bucketArgs env) "acl" = false)
    (hver : dictHas (bucketArgs env) "versioning" = false) :
    (alGet? env "HTTP_X_AMZ_ACL" = none → bucketPUT env inp = .forward env) ∧
    (∀ amz, alGet? env "HTTP_X_AMZ_ACL" = some amz →
      bucketPUT env inp =
        match swift_acl_translate amz with
        | .unsupported => .earlyErr .Unsupported
        | .invalidArgument => .earlyErr .InvalidArgument
        | .headers hs =>
            .forward (hs.foldl (fun e p => alSet e p.1 p.2)
              (alDel env "HTTP_X_AMZ_ACL"))) ∧
    swift_acl_translate "private" =
      .headers [("HTTP_X_CONTAINER_WRITE", "."), ("HTTP_X_CONTAINER_READ", ".")] ∧
    swift_acl_translate "public-read" =
      .headers [("HTTP_X_CONTAINER_READ", ".r:*,.rlistings")] ∧
    swift_acl_translate "public-read-write" =
      .headers [("HTTP_X_CONTAINER_WRITE", ".r:*"),
                ("HTTP_X_CONTAINER_READ", ".r:*,.rlistings")] ∧
    swift_acl_translate "authenticated-read" = .unsupported ∧
    (∀ v, v ∉ ["private", "public-read", "public-read-write",
               "authenticated-read"] → swift_acl_translate v = .invalidArgument) := by
  refine ⟨?_, ?_, rfl, rfl, rfl, rfl, ?_⟩
  · intro hno
    unfold bucketPUT
    simp [hcl, hacl, hver, hno]
  · intro amz hsome
    unfold bucketPUT
    simp [hcl, hacl, hver, hsome]
  · intro v hv
    simp only [List.mem_cons, List.not_mem_nil, or_false, not_or] at hv
    obtain ⟨h1, h2, h3, h4⟩ := hv
    unfold swift_acl_translate
    rw [if_neg h4, if_neg h2, if_neg h3, if_neg h1]

/-- C5 counterexample to the unconditional claim: with an unparsable
Content-Length the request is rejected with InvalidArgument before the
`x-amz-acl` translation, even though `authenticated-read` would call for
Unsupported. -/
theorem C5_content_length_counterexample :
    bucketPUT [("CONTENT_LENGTH", "x"), ("HTTP_X_AMZ_ACL", "authenticated-read")]
        none
      = .earlyErr .InvalidArgument := by decide

/-- Closed witness for C5: an env carrying `x-amz-acl: public-read` and no
Content-Length satisfies the hypotheses; the translated header replaces it
on the forwarded environment. -/
theorem C5_put_bucket_acl_translation_witness :
    (alGet? [("QUERY_STRING", ""), ("HTTP_X_AMZ_ACL", "public-read")]
        "HTTP_X_AMZ_ACL" = none →
      bucketPUT [("QUERY_STRING", ""), ("HTTP_X_AMZ_ACL", "public-read")] none
        = .forward [("QUERY_STRING", ""), ("HTTP_X_AMZ_ACL", "public-read")]) ∧
    (∀ amz, alGet? [("QUERY_STRING", ""), ("HTTP_X_AMZ_ACL", "public-read")]
        "HTTP_X_AMZ_ACL" = some amz →
      bucketPUT [("QUERY_STRING", ""), ("HTTP_X_AMZ_ACL", "public-read")] none =
        match swift_acl_translate amz with
        | .unsupported => .earlyErr .Unsupported
        | .invalidArgument => .earlyErr .InvalidArgument
        | .headers hs =>
            .forward (hs.foldl (fun e p => alSet e p.1 p.2)
              (alDel [("QUERY_STRING", ""), ("HTTP_X_AMZ_ACL", "public-read")]
                "HTTP_X_AMZ_ACL"))) ∧
    swift_acl_translate "private" =
      .headers [("HTTP_X_CONTAINER_WRITE", "."), ("HTTP_X_CONTAINER_READ", ".")] ∧
    swift_acl_translate "public-read" =
      .headers [("HTTP_X_CONTAINER_READ", ".r:*,.rlistings")] ∧
    swift_acl_translate "public-read-write" =
      .headers [("HTTP_X_CONTAINER_WRITE", ".r:*"),
                ("HTTP_X_CONTAINER_READ", ".r:*,.rlistings")] ∧
    swift_acl_translate "authenticated-read" = .unsupported ∧
    (∀ v, v ∉ ["private", "public-read", "public-read-write",
               "authenticated-read"] → swift_acl_translate v = .invalidArgument) :=
  C5_put_bucket_acl_translation
    [("QUERY_STRING", ""), ("HTTP_X_AMZ_ACL", "public-read")] none
    (by decide) (by decide) (by decide)

/-- C2 (corrected): on the 200 listing paths, the ?versions body is built
with `versionsIsTruncated` and the plain body with `plainIsTruncated`; the
plain element is `'true'` exactly when `max_keys > 0` and the backend
returned `max_keys + 1` items, but the ?versions element is `'true'`
exactly when the backend returned `max_keys + 1` items with no
`max_keys > 0` guard — so with max-keys 0 and one returned item the
?versions listing says `true`. -/
theorem C2_is_truncated (env : Env) (location container account : String)
    (respHeaders : Env) (objects : List SwiftObj)
    (hmk : maxKeysOk (bucketArgs env) = true)
    (hacl : dictHas (bucketArgs env) "acl" = false)
    (hloc : dictHas (bucketArgs env) "location" = false)
    (hver : dictHas (bucketArgs env) "versioning" = false)
    (hlog : dictHas (bucketArgs env) "logging" = false) :
    (dictHas (bucketArgs env) "versions" = true →
      bucketGET env location container account 200 respHeaders objects
        = .call "GET"
            (match versionsBody (bucketArgs env) container
                (bucketMaxKeys (bucketArgs env)) objects with
             | some b => .resp b
             | none => .raised)) ∧
    (dictHas (bucketArgs env) "versions" = false →
      bucketGET env location container account 200 respHeaders objects
        = .call "GET"
            (.resp (plainBody (bucketArgs env) container account
              (bucketMaxKeys (bucketArgs env)) objects))) ∧
    (∀ n mk, versionsIsTruncated n mk = "true" ↔ n = mk + 1) ∧
    (∀ n mk, plainIsTruncated n mk = "true" ↔ (0 < mk ∧ n = mk + 1)) := by
  refine ⟨?_, ?_, ?_, ?_⟩
  · intro hv
    unfold bucketGET
    simp [hmk, hacl, hloc, hver, hlog, hv]
  · intro hv
    unfold bucketGET
    simp [hmk, hacl, hloc, hver, hlog, hv]
  · intro n mk
    by_cases h : n = mk + 1 <;> simp [versionsIsTruncated, h]
  · intro n mk
    by_cases h : 0 < mk ∧ n = mk + 1 <;> simp [plainIsTruncated, h]

/-- C2 counterexample: with query `versions&max-keys=0` and one returned
object the emitted ListVersionsResult contains `<IsTruncated>true</IsTruncated>`,
while the plain listing for the same data says false — `max-keys = 0` does
not force `false` on the ?versions path. -/
theorem C2_versions_maxkeys_zero_counterexample :
    (outcomeBody (bucketGET [("QUERY_STRING", "versions&max-keys=0")]
        "US" "b" "a" 200 []
        [⟨none, "o", false, "1", true, "lm", "h", 0, some "own"⟩])).map
      (fun b => containsSub "<IsTruncated>true</IsTruncated>".data b.data)
      = some true ∧
    (outcomeBody (bucketGET [("QUERY_STRING", "max-keys=0")]
        "US" "b" "a" 200 []
        [⟨none, "o", false, "1", true, "lm", "h", 0, some "own"⟩])).map
      (fun b => containsSub "<IsTruncated>true</IsTruncated>".data b.data)
      = some false := by
  refine ⟨?_, ?_⟩ <;> decide

/-- Closed witness for C2: the hypotheses hold for the query
`versions&max-keys=2` with an empty backend listing. -/
theorem C2_is_truncated_witness :
    (dictHas (bucketArgs [("QUERY_STRING", "versions&max-keys=2")]) "versions"
        = true →
      bucketGET [("QUERY_STRING", "versions&max-keys=2")] "US" "b" "a" 200 [] []
        = .call "GET"
            (match versionsBody (bucketArgs [("QUERY_STRING", "versions&max-keys=2")])
                "b" (bucketMaxKeys (bucketArgs [("QUERY_STRING", "versions&max-keys=2")]))
                [] with
             | some b => .resp b
             | none => .raised)) ∧
    (dictHas (bucketArgs [("QUERY_STRING", "versions&max-keys=2")]) "versions"
        = false →
      bucketGET [("QUERY_STRING", "versions&max-keys=2")] "US" "b" "a" 200 [] []
        = .call "GET"
            (.resp (plainBody (bucketArgs [("QUERY_STRING", "versions&max-keys=2")])
              "b" "a"
              (bucketMaxKeys (bucketArgs [("QUERY_STRING", "versions&max-keys=2")]))
              []))) ∧
    (∀ n mk, versionsIsTruncated n mk = "true" ↔ n = mk + 1) ∧
    (∀ n mk, plainIsTruncated n mk = "true" ↔ (0 < mk ∧ n = mk + 1)) :=
  C2_is_truncated [("QUERY_STRING", "versions&max-keys=2")] "US" "b" "a" [] []
    (by decide) (by decide) (by decide) (by decide) (by decide)

/-- C10 (corrected): when the query contains `acl` and passes the max-keys
digits guard, the middleware issues a HEAD and answers with the
AccessControlPolicy built from the backend's response headers, for every
backend status — the status error mappings are bypassed.  The guard
hypothesis is necessary: with `acl` and a non-digit `max-keys` the request
is rejected before any backend call (see the counterexample). -/
theorem C10_get_bucket_acl (env : Env) (location container account : String)
    (status : Nat) (respHeaders : Env) (objects : List SwiftObj)
    (hmk : maxKeysOk (bucketArgs env) = true)
    (hacl : dictHas (bucketArgs env) "acl" = true) :
    bucketGET env location container account status respHeaders objects
      = .call "HEAD"
          (.resp (get_s3_acl_body respHeaders containerAclHeaders .container)) := by
  unfold bucketGET
  simp [hmk, hacl]

/-- C10 counterexample to "for every GET Bucket request whose query
contains 'acl'": the query `acl&max-keys=x` is rejected with
InvalidArgument before the backend HEAD. -/
theorem C10_acl_maxkeys_precheck_counterexample :
    bucketGET [("QUERY_STRING", "acl&max-keys=x")] "US" "bucket" "acct" 404 [] []
      = .earlyErr .InvalidArgument := by decide

/-- Closed witness for C10: with query `acl` and a 404 backend the outcome
is still the HEAD call and the policy document from the response headers. -/
theorem C10_get_bucket_acl_witness :
    bucketGET [("QUERY_STRING", "acl")] "US" "bucket" "acct" 404
        [("x-container-owner", "me"), ("x-container-acl-read", "alice")] []
      = .call "HEAD"
          (.resp (get_s3_acl_body
            [("x-container-owner", "me"), ("x-container-acl-read", "alice")]
            containerAclHeaders .container)) :=
  C10_get_bucket_acl [("QUERY_STRING", "acl")] "US" "bucket" "acct" 404
    [("x-container-owner", "me"), ("x-container-acl-read", "alice")] []
    (by decide) (by decide)

end Swift3
